import Mathlib

/-!
Shallow embedding of `src/video_core/renderer_opengl/gl_shader_manager.cpp`
(Citra's OpenGL shader program manager) and proofs about its caching,
binding and persistence behaviour.

Modelling conventions:
* `u64`/`u32` values are `Nat`s; where the code truncates (serialization)
  this is made explicit with bounds / byte decomposition.
* The external collaborators (the 64-bit hash `Common::ComputeHash64`, the
  shader source generators, the GL driver's binary install/query) are
  parameters collected in an `Env` structure; the manager's behaviour
  depends on them only through their results, exactly as in the code.
* `std::unordered_map` is modelled as an association list with
  `emplaceA` (insert only when the key is absent, like `emplace`) —
  iteration order of the C++ map is unspecified, the list order here is
  insertion order.
* Pointers into the `shaders` map (which are stable in
  `std::unordered_map`) are modelled as the map key (`StageRef.cached`),
  plus tags for the two trivial singleton stages.
* GPU handles returned by compile/link/install are modelled by a fresh
  counter `next_handle` starting at 1, so a successfully created object
  always has a nonzero handle (`glCreateShader`/`glCreateProgram` return
  nonzero names on success).
* Calls into the external generators / compiler / linker are recorded as
  an event list `List Ev`, so that "is called exactly once" claims are
  counting statements over a run's trace.
-/

namespace GlShaderManager

/-- Association-list lookup, the model of `unordered_map::find`. -/
def lookupA {α : Type} : List (Nat × α) → Nat → Option α
  | [], _ => none
  | (k, v) :: m, k' => if k = k' then some v else lookupA m k'

/-- The model of `unordered_map::emplace`: insert only when the key is
absent; returns the new map and whether a fresh entry was created. -/
def emplaceA {α : Type} (m : List (Nat × α)) (k : Nat) (v : α) :
    List (Nat × α) × Bool :=
  match lookupA m k with
  | some _ => (m, false)
  | none => (m ++ [(k, v)], true)

/-- `OGLShaderStage`: content hash of the generating source (0 for the
built-in trivial shaders) and the GL handle of the shader-or-program
object (0 until `Create` runs). -/
structure OGLShaderStage where
  hash : Nat := 0
  handle : Nat := 0
deriving DecidableEq, Repr

/-- A non-owning reference to a stage object: one of the two trivial
singletons, or a pointer into the `shaders` map at the given key. -/
inductive StageRef
  | trivialVS
  | trivialGS
  | cached (k : Nat)
deriving DecidableEq, Repr

/-- `ProgramCacheEntity`: a persisted program binary (format tag plus raw
bytes). -/
structure ProgramCacheEntity where
  format : Nat
  binary : List Nat
deriving DecidableEq, Repr

/-- Events recording the calls the manager makes into its external
collaborators (source generators, compiler, linker, binary install). -/
inductive Ev
  | genVS (cfg : Nat)
  | genGS (cfg : Nat)
  | genFS (cfg : Nat)
  | compile (codeHash : Nat)
  | link (progHash vs gs fs : Nat)
  | install (progHash : Nat)
  | clearStages
  | useStages (vs gs fs : Nat)
  | bindings (prog : Nat)
deriving DecidableEq, Repr

/-- The state of `ShaderProgramManager::Impl`. -/
structure MgrState where
  separable : Bool
  is_amd : Bool
  trivial_vertex_shader : OGLShaderStage
  trivial_geometry_shader : OGLShaderStage
  shaders_ref : List (Nat × Option Nat) := []
  shaders : List (Nat × OGLShaderStage) := []
  binary_cache : List (Nat × ProgramCacheEntity) := []
  program_cache : List (Nat × Nat) := []
  pipeline_handle : Nat := 0
  current_vs : Option StageRef := none
  current_gs : Option StageRef := none
  current_fs : Option StageRef := none
  next_handle : Nat := 1
deriving DecidableEq, Repr

/-- The external collaborators: `Common::ComputeHash64` applied to the
three config-key layouts, to source text and to the three-hash array;
the three source generators; and the GL driver's program-binary
install/query behaviour. -/
structure Env where
  hashVSKey : Nat → Nat
  hashGSKey : Nat → Nat
  hashFSKey : Nat → Nat
  hashCode : String → Nat
  hashTriple : Nat → Nat → Nat → Nat
  genVS : Nat → String
  genGS : Nat → String
  genFS : Nat → String
  installOk : Nat → List Nat → Bool
  progBinary : Nat → Nat × List Nat

/-- `Impl::UseProgrammableVertexShader`: look the config-key hash up in
`shaders_ref`; on a miss run the generator — empty source records a null
resolution, otherwise insert-or-fetch by source hash in `shaders`
(compiling only a fresh entry) and record the reference. Returns the new
state, the trace of external calls, and the C++ return value
`current_shaders.vs != nullptr`. -/
def useProgrammableVertexShader (env : Env) (s : MgrState) (cfg : Nat) :
    MgrState × List Ev × Bool :=
  let key_hash := env.hashVSKey cfg
  match lookupA s.shaders_ref key_hash with
  | some r =>
      ({ s with current_vs := r.map StageRef.cached }, [], r.isSome)
  | none =>
      let vs_code := env.genVS cfg
      if vs_code = "" then
        ({ s with shaders_ref := (key_hash, none) :: s.shaders_ref,
                  current_vs := none }, [Ev.genVS cfg], false)
      else
        let code_hash := env.hashCode vs_code
        match lookupA s.shaders code_hash with
        | some _ =>
            ({ s with shaders_ref := (key_hash, some code_hash) :: s.shaders_ref,
                      current_vs := some (StageRef.cached code_hash) },
             [Ev.genVS cfg], true)
        | none =>
            let stage : OGLShaderStage := ⟨code_hash, s.next_handle⟩
            ({ s with shaders := s.shaders ++ [(code_hash, stage)],
                      shaders_ref := (key_hash, some code_hash) :: s.shaders_ref,
                      current_vs := some (StageRef.cached code_hash),
                      next_handle := s.next_handle + 1 },
             [Ev.genVS cfg, Ev.compile code_hash], true)

/-- `Impl::UseFixedGeometryShader`: the config-key hash itself is the
`shaders` cache key (no content-hash dedup level); the generator runs
only when the emplace created a fresh entry. -/
def useFixedGeometryShader (env : Env) (s : MgrState) (cfg : Nat) :
    MgrState × List Ev :=
  let key_hash := env.hashGSKey cfg
  match lookupA s.shaders key_hash with
  | some _ =>
      ({ s with current_gs := some (StageRef.cached key_hash) }, [])
  | none =>
      let stage : OGLShaderStage := ⟨key_hash, s.next_handle⟩
      ({ s with shaders := s.shaders ++ [(key_hash, stage)],
                current_gs := some (StageRef.cached key_hash),
                next_handle := s.next_handle + 1 },
       [Ev.genGS cfg, Ev.compile key_hash])

/-- `Impl::UseFragmentShader`: like the vertex path but the generated
source is used unconditionally (never treated as empty). -/
def useFragmentShader (env : Env) (s : MgrState) (cfg : Nat) :
    MgrState × List Ev :=
  let key_hash := env.hashFSKey cfg
  match lookupA s.shaders_ref key_hash with
  | some r =>
      ({ s with current_fs := r.map StageRef.cached }, [])
  | none =>
      let fs_code := env.genFS cfg
      let code_hash := env.hashCode fs_code
      match lookupA s.shaders code_hash with
      | some _ =>
          ({ s with shaders_ref := (key_hash, some code_hash) :: s.shaders_ref,
                    current_fs := some (StageRef.cached code_hash) },
           [Ev.genFS cfg])
      | none =>
          let stage : OGLShaderStage := ⟨code_hash, s.next_handle⟩
          ({ s with shaders := s.shaders ++ [(code_hash, stage)],
                    shaders_ref := (key_hash, some code_hash) :: s.shaders_ref,
                    current_fs := some (StageRef.cached code_hash),
                    next_handle := s.next_handle + 1 },
           [Ev.genFS cfg, Ev.compile code_hash])

/-- `Impl::UseTrivialVertexShader`. -/
def useTrivialVertexShader (s : MgrState) : MgrState :=
  { s with current_vs := some StageRef.trivialVS }

/-- `Impl::UseTrivialGeometryShader`. -/
def useTrivialGeometryShader (s : MgrState) : MgrState :=
  { s with current_gs := some StageRef.trivialGS }

/-- Resolve a stage reference against the state (pointer dereference). -/
def derefStage (s : MgrState) : StageRef → Option OGLShaderStage
  | StageRef.trivialVS => some s.trivial_vertex_shader
  | StageRef.trivialGS => some s.trivial_geometry_shader
  | StageRef.cached k => lookupA s.shaders k

/-- The two fields of `OpenGLState::draw` that `ApplyTo` writes. -/
structure DrawState where
  shader_program : Nat
  program_pipeline : Nat
deriving DecidableEq, Repr

/-- The fresh-link branch of `Impl::CreateProgram`: link from the three
live stage handles, query the program binary, and insert it into
`binary_cache` iff it is non-empty. Returns program handle, new
`binary_cache`, new handle counter and trace. -/
def linkFresh (env : Env) (bc : List (Nat × ProgramCacheEntity))
    (h vs gs fs nxt : Nat) :
    Nat × List (Nat × ProgramCacheEntity) × Nat × List Ev :=
  let ph := nxt
  let fb := env.progBinary ph
  let bc' := if fb.2 = [] then bc else (emplaceA bc h ⟨fb.1, fb.2⟩).1
  (ph, bc', nxt + 1, [Ev.link h vs gs fs])

/-- `Impl::CreateProgram`: first try to install the persisted binary blob
for `h`; a failed install (handle 0) clears the whole `binary_cache`
("cache data corrupted") and falls through to a fresh link. -/
def createProgram (env : Env) (bc : List (Nat × ProgramCacheEntity))
    (h vs gs fs nxt : Nat) :
    Nat × List (Nat × ProgramCacheEntity) × Nat × List Ev :=
  match lookupA bc h with
  | some ent =>
      if env.installOk ent.format ent.binary then
        (nxt, bc, nxt + 1, [Ev.install h])
      else
        linkFresh env [] h vs gs fs nxt
  | none => linkFresh env bc h vs gs fs nxt

/-- `Impl::ApplyTo`. `none` models the fatal crash on a null (or
dangling) active stage pointer: the code dereferences all three
unconditionally. In separable mode it binds the three stage handles to
the pipeline (with the AMD reset workaround) and publishes the pipeline
handle; in monolithic mode it looks up / creates the linked program for
the hash of the three stage content hashes and publishes its handle. -/
def applyTo (env : Env) (s : MgrState) :
    Option (MgrState × DrawState × List Ev) :=
  match s.current_vs, s.current_gs, s.current_fs with
  | some rv, some rg, some rf =>
    match derefStage s rv, derefStage s rg, derefStage s rf with
    | some sv, some sg, some sf =>
      if s.separable then
        some (s, ⟨0, s.pipeline_handle⟩,
              (if s.is_amd then [Ev.clearStages] else []) ++
                [Ev.useStages sv.handle sg.handle sf.handle])
      else
        let h := env.hashTriple sv.hash sg.hash sf.hash
        let cur := (lookupA s.program_cache h).getD 0
        if cur = 0 then
          let r := createProgram env s.binary_cache h sv.handle sg.handle
                     sf.handle s.next_handle
          some ({ s with binary_cache := r.2.1,
                         program_cache := (h, r.1) :: s.program_cache,
                         next_handle := r.2.2.1 },
                ⟨r.1, 0⟩, r.2.2.2 ++ [Ev.bindings r.1])
        else
          some (s, ⟨cur, 0⟩, [])
    | _, _, _ => none
  | _, _, _ => none

/-! ## Persistence: byte-level serialization of the program cache -/

/-- Little-endian encoding of `v` in `w` bytes (truncating, as the C++
`WriteBytes(&x, sizeof(x))` does). -/
def toLE : Nat → Nat → List Nat
  | 0, _ => []
  | w + 1, v => v % 256 :: toLE w (v / 256)

/-- Little-endian decoding of a byte list. -/
def fromLE : List Nat → Nat
  | [] => 0
  | b :: bs => b + 256 * fromLE bs

/-- A file opened for reading: remaining bytes and the `IsGood` flag. -/
structure FileR where
  bytes : List Nat
  good : Bool
deriving DecidableEq, Repr

/-- `ReadBytes(&v, n)` for an integer field whose destination currently
holds `old`: a full read consumes `n` bytes; on a short read (fewer than
`n` bytes left, `fread` hits EOF) `fread` fills only the low-order bytes
it could read, the untouched high-order bytes of the destination keep
their previous value `old`, and `IsGood` is cleared. (`verion` and
`count` are zero-initialized in the code, so their reads pass `old = 0`;
the entry-loop locals `hash`/`format`/`length` are uninitialized and
pass whatever the previous iteration — or the indeterminate initial
garbage — left in them.) -/
def readLE (f : FileR) (n : Nat) (old : Nat) : Nat × FileR :=
  if n ≤ f.bytes.length then
    (fromLE (f.bytes.take n), ⟨f.bytes.drop n, f.good⟩)
  else
    (fromLE (f.bytes ++ (toLE n old).drop f.bytes.length), ⟨[], false⟩)

/-- `binary.resize(length)` followed by
`ReadBytes(binary.data(), length)`: `resize` value-initializes (zeroes)
the buffer — the vector is empty after having been moved from on the
previous iteration — then a short read overwrites only the bytes that
were left in the file and clears `IsGood`. -/
def readRaw (f : FileR) (n : Nat) : List Nat × FileR :=
  if n ≤ f.bytes.length then
    (f.bytes.take n, ⟨f.bytes.drop n, f.good⟩)
  else
    (f.bytes ++ List.replicate (n - f.bytes.length) 0, ⟨[], false⟩)

def PROGRAM_CACHE_VERSION : Nat := 2

/-- One iteration of the save loop: 64-bit key, 32-bit format tag,
32-bit byte length, raw bytes. -/
def entryBytes (p : Nat × ProgramCacheEntity) : List Nat :=
  toLE 8 p.1 ++ toLE 4 p.2.format ++ toLE 4 p.2.binary.length ++ p.2.binary

/-- The bytes written by the save loop for a whole table. -/
def entriesBytes : List (Nat × ProgramCacheEntity) → List Nat
  | [] => []
  | p :: t => entryBytes p ++ entriesBytes t

/-- The body of `Impl::SaveProgramCache` with all writes succeeding: the
version tag, the entry count, then per entry the 64-bit key, 32-bit
format tag, 32-bit byte length and the raw bytes. -/
def saveProgramCache (bc : List (Nat × ProgramCacheEntity)) : List Nat :=
  toLE 4 PROGRAM_CACHE_VERSION ++ toLE 4 bc.length ++ entriesBytes bc

/-- Well-formedness of one persisted entry: key fits in 64 bits, format
tag and byte count fit in 32 bits (`256 ^ 8 = 2 ^ 64`,
`256 ^ 4 = 2 ^ 32`). -/
def entryWF (p : Nat × ProgramCacheEntity) : Prop :=
  p.1 < 256 ^ 8 ∧ p.2.format < 256 ^ 4 ∧ p.2.binary.length < 256 ^ 4

instance (p : Nat × ProgramCacheEntity) : Decidable (entryWF p) := by
  unfold entryWF
  infer_instance

/-- The entry-reading loop of `Impl::LoadProgramCache`. The locals
`hash`/`format`/`length` are declared before the loop and never
initialized, so each iteration's failed reads see the values the
previous iteration left (`h0`/`f0`/`l0` on entry). Each iteration reads
key, format, length and payload, `emplace`s the entry, decrements the
count and only then checks `IsGood`; on failure it deletes the file and
breaks, keeping everything already emplaced. Returns the resulting
`binary_cache` and whether the file was deleted. -/
def loadLoop : Nat → FileR → Nat → Nat → Nat →
    List (Nat × ProgramCacheEntity) → List (Nat × ProgramCacheEntity) × Bool
  | 0, _, _, _, _, bc => (bc, false)
  | n + 1, f, h0, f0, l0, bc =>
    let rh := readLE f 8 h0
    let rf := readLE rh.2 4 f0
    let rl := readLE rf.2 4 l0
    let rb := readRaw rl.2 rl.1
    let bc' := (emplaceA bc rh.1 ⟨rf.1, rb.1⟩).1
    if rb.2.good then loadLoop n rb.2 rh.1 rf.1 rl.1 bc' else (bc', true)

/-- `Impl::LoadProgramCache`, parameterized by the indeterminate initial
contents `h0`/`f0`/`l0` of the uninitialized entry-loop locals. `none`
models a file that fails to open (`!file.IsGood()` after the
constructor). A version tag other than 2 deletes the file and loads
nothing; `verion` and `count` ARE zero-initialized, so their failed
reads zero-extend. The entry count is read as a signed 32-bit value: a
value ≥ 2^31 is negative, so the loop body never runs (and a failed
count read leaves the zero-initialized count, loading nothing and —
with no `IsGood` check after that read — not deleting the file).
Returns the resulting `binary_cache` and whether the file was
deleted. -/
def loadProgramCache (h0 f0 l0 : Nat) (file : Option (List Nat)) :
    List (Nat × ProgramCacheEntity) × Bool :=
  match file with
  | none => ([], false)
  | some bytes =>
    let fr : FileR := ⟨bytes, true⟩
    let rv := readLE fr 4 0
    if rv.1 ≠ PROGRAM_CACHE_VERSION then ([], true)
    else
      let rc := readLE rv.2 4 0
      let fuel := if rc.1 < 2 ^ 31 then rc.1 else 0
      loadLoop fuel rc.2 h0 f0 l0 []

/-- The key/format/length values the entry loop's locals hold after
processing a list of complete entries, starting from the indeterminate
initial values: the last entry's key, format tag and byte length, or
the initial values when no entry was read. -/
def staleVals : List (Nat × ProgramCacheEntity) → Nat × Nat × Nat →
    Nat × Nat × Nat
  | [], g => g
  | p :: t, _ => staleVals t (p.1, p.2.format, p.2.binary.length)

/-- `Impl::Impl(separable, is_amd)`: in separable mode create the
pipeline object; otherwise, if the shader-cache setting is on, load the
persisted program cache (the loader's uninitialized locals are
instantiated to 0 here; no property proved about `initState` depends on
them — they only surface when a file's very first entry read fails).
Then compile the trivial vertex shader with content hash 0. The trivial
geometry shader is default-constructed and never compiled. Returns the
state and whether the cache file was deleted during loading. -/
def initState (separable is_amd use_shader_cache : Bool)
    (file : Option (List Nat)) : MgrState × Bool :=
  let pip := if separable then 1 else 0
  let nxt1 := if separable then 2 else 1
  let lr := if !separable && use_shader_cache then loadProgramCache 0 0 0 file
            else ([], false)
  ({ separable := separable, is_amd := is_amd,
     trivial_vertex_shader := ⟨0, nxt1⟩,
     trivial_geometry_shader := ⟨0, 0⟩,
     binary_cache := lr.1,
     pipeline_handle := pip,
     next_handle := nxt1 + 1 }, lr.2)

/-! ## Operation sequences -/

/-- The public operations of `ShaderProgramManager`. -/
inductive Op
  | progVS (cfg : Nat)
  | fixedGS (cfg : Nat)
  | fragFS (cfg : Nat)
  | trivVS
  | trivGS
  | apply
deriving DecidableEq, Repr

/-- One public call; `none` is the fatal crash in `ApplyTo`. -/
def step (env : Env) (s : MgrState) : Op → Option (MgrState × List Ev)
  | Op.progVS cfg =>
      let r := useProgrammableVertexShader env s cfg
      some (r.1, r.2.1)
  | Op.fixedGS cfg =>
      let r := useFixedGeometryShader env s cfg
      some r
  | Op.fragFS cfg =>
      let r := useFragmentShader env s cfg
      some r
  | Op.trivVS => some (useTrivialVertexShader s, [])
  | Op.trivGS => some (useTrivialGeometryShader s, [])
  | Op.apply => (applyTo env s).map (fun r => (r.1, r.2.2))

/-- Run a sequence of public calls, accumulating the trace. -/
def run (env : Env) (s : MgrState) : List Op → Option (MgrState × List Ev)
  | [] => some (s, [])
  | op :: ops =>
    match step env s op with
    | none => none
    | some (s', evs) =>
        (run env s' ops).map (fun r => (r.1, evs ++ r.2))

/-! ## Trace counters -/

/-- Does this event record a compile of source with content hash `ch`
(an `OGLShaderStage::Create` call)? -/
def isCompile (ch : Nat) : Ev → Bool
  | Ev.compile c => c = ch
  | _ => false

/-- Number of compile calls for content hash `ch` in a trace. -/
def compileCount (evs : List Ev) (ch : Nat) : Nat :=
  evs.countP (fun e => isCompile ch e)

/-- Does this event record the creation of the linked program for
program hash `h` (a fresh link or a successful binary install)? -/
def isCreate (h : Nat) : Ev → Bool
  | Ev.link ph _ _ _ => ph = h
  | Ev.install ph => ph = h
  | _ => false

/-- Number of linked-program creations for program hash `h` in a
trace. -/
def createCount (evs : List Ev) (h : Nat) : Nat :=
  evs.countP (fun e => isCreate h e)

/-- Does this event record a generator invocation? -/
def isGen : Ev → Bool
  | Ev.genVS _ => true
  | Ev.genGS _ => true
  | Ev.genFS _ => true
  | _ => false

/-- Number of generator invocations in a trace. -/
def genCount (evs : List Ev) : Nat :=
  evs.countP (fun e => isGen e)

/-- Number of entries of an association list with key `k`. -/
def keyCount {α : Type} (m : List (Nat × α)) (k : Nat) : Nat :=
  m.countP (fun p => p.1 = k)

/-! ## Concrete environments and states used to evaluate the model -/

/-- A small concrete environment: injective key hashes per stage, the
source-text hash is the text length, generators return fixed texts
(config 0 generates empty vertex source), binary format 1 installs and
every other format is rejected by the driver. -/
def envA : Env where
  hashVSKey := fun c => c
  hashGSKey := fun c => c + 100
  hashFSKey := fun c => c + 200
  hashCode := fun t => t.length
  hashTriple := fun a b c => a + 1000 * b + 1000000 * c
  genVS := fun c => if c = 0 then "" else "vshader"
  genGS := fun _ => "gsh"
  genFS := fun _ => "fshader8"
  installOk := fun f _ => f == 1
  progBinary := fun h => (1, [h])

/-- A variant whose vertex and fragment generators emit the same text. -/
def envB : Env where
  hashVSKey := fun c => c
  hashGSKey := fun c => c + 100
  hashFSKey := fun c => c + 200
  hashCode := fun t => t.length
  hashTriple := fun a b c => a + 1000 * b + 1000000 * c
  genVS := fun _ => "shared"
  genGS := fun _ => "gsh"
  genFS := fun _ => "shared"
  installOk := fun f _ => f == 1
  progBinary := fun h => (1, [h])

/-- A freshly constructed monolithic manager (no persisted cache). -/
def s0 : MgrState := (initState false false false none).1

/-- A freshly constructed separable manager (with the shader-cache
setting on and a file present, neither of which separable mode reads). -/
def sSep : MgrState := (initState true false true (some [9, 9, 9])).1

/-- A persisted-blob table with two entries. -/
def bcW : List (Nat × ProgramCacheEntity) :=
  [(5, ⟨6, [1, 2, 3]⟩), (70000, ⟨1, []⟩)]

/-- A store file with a valid header announcing two entries, one
complete entry (key 5, format 7, one byte 9), then truncation. -/
def C6file : List Nat :=
  toLE 4 2 ++ toLE 4 2 ++ toLE 8 5 ++ toLE 4 7 ++ toLE 4 1 ++ [9]

/-- A monolithic manager that has resolved a programmable vertex stage
and a fragment stage and selected the trivial geometry stage. -/
def sA : MgrState :=
  useTrivialGeometryShader
    (useFragmentShader envA (useProgrammableVertexShader envA s0 5).1 7).1

/-! ## Association-list lemmas -/

theorem lookupA_nil {α : Type} (k : Nat) : lookupA ([] : List (Nat × α)) k = none := rfl

theorem lookupA_cons {α : Type} (k' : Nat) (v : α) (m : List (Nat × α)) (k : Nat) :
    lookupA ((k', v) :: m) k = if k' = k then some v else lookupA m k := rfl

theorem lookupA_cons_ne {α : Type} {k' k : Nat} (v : α) (m : List (Nat × α))
    (h : k' ≠ k) : lookupA ((k', v) :: m) k = lookupA m k := by
  simp [lookupA, h]

theorem lookupA_append_of_some {α : Type} {m : List (Nat × α)} {k : Nat} {x : α}
    (h : lookupA m k = some x) (l : List (Nat × α)) :
    lookupA (m ++ l) k = some x := by
  induction m with
  | nil => simp [lookupA] at h
  | cons p m ih =>
    rw [List.cons_append]
    cases p with
    | mk k' v =>
      rw [lookupA_cons] at h ⊢
      by_cases hk : k' = k
      · rwa [if_pos hk] at h ⊢
      · rw [if_neg hk] at h ⊢
        exact ih h

theorem lookupA_append_of_none {α : Type} {m : List (Nat × α)} {k : Nat}
    (h : lookupA m k = none) (l : List (Nat × α)) :
    lookupA (m ++ l) k = lookupA l k := by
  induction m with
  | nil => simp
  | cons p m ih =>
    rw [List.cons_append]
    cases p with
    | mk k' v =>
      rw [lookupA_cons] at h ⊢
      by_cases hk : k' = k
      · rw [if_pos hk] at h
        simp at h
      · rw [if_neg hk] at h ⊢
        exact ih h

theorem lookupA_emplaceA_ne {α : Type} (m : List (Nat × α)) {k k' : Nat} (v : α)
    (h : k ≠ k') : lookupA (emplaceA m k v).1 k' = lookupA m k' := by
  unfold emplaceA
  cases hm : lookupA m k with
  | some w => rfl
  | none =>
    cases hm' : lookupA m k' with
    | some w => exact lookupA_append_of_some hm' _
    | none =>
      rw [lookupA_append_of_none hm']
      simp [lookupA, h]

theorem lookupA_emplaceA_self_of_none {α : Type} {m : List (Nat × α)} {k : Nat}
    (v : α) (h : lookupA m k = none) :
    lookupA (emplaceA m k v).1 k = some v := by
  unfold emplaceA
  rw [h]
  rw [lookupA_append_of_none h]
  simp [lookupA]

theorem lookupA_emplaceA_self_of_some {α : Type} {m : List (Nat × α)} {k : Nat}
    (v : α) {w : α} (h : lookupA m k = some w) :
    (emplaceA m k v).1 = m := by
  unfold emplaceA
  rw [h]

theorem keyCount_emplaceA {α : Type} (m : List (Nat × α)) (k : Nat) (v : α)
    (k' : Nat) : keyCount (emplaceA m k v).1 k' ≤ keyCount m k' + 1 := by
  unfold emplaceA
  cases hm : lookupA m k with
  | some w => exact Nat.le_succ _
  | none =>
    unfold keyCount
    rw [List.countP_append]
    simp [List.countP_cons]
    split <;> omega

theorem keyCount_nil {α : Type} (k : Nat) : keyCount ([] : List (Nat × α)) k = 0 := rfl

theorem lookupA_isSome_of_keyCount_pos {α : Type} {m : List (Nat × α)} {k : Nat}
    (h : 0 < keyCount m k) : (lookupA m k).isSome := by
  induction m with
  | nil => simp [keyCount] at h
  | cons p m ih =>
    cases p with
    | mk k' v =>
      rw [lookupA_cons]
      by_cases hk : k' = k
      · simp [hk]
      · rw [if_neg hk]
        apply ih
        unfold keyCount at h ⊢
        rw [List.countP_cons] at h
        simpa [hk] using h

theorem keyCount_pos_of_lookupA_isSome {α : Type} {m : List (Nat × α)} {k : Nat}
    (h : (lookupA m k).isSome) : 0 < keyCount m k := by
  induction m with
  | nil => simp [lookupA] at h
  | cons p m ih =>
    cases p with
    | mk k' v =>
      rw [lookupA_cons] at h
      unfold keyCount
      rw [List.countP_cons]
      by_cases hk : k' = k
      · simp [hk]
      · rw [if_neg hk] at h
        have := ih h
        unfold keyCount at this
        simpa [hk] using this

theorem keyCount_emplaceA_of_none {α : Type} {m : List (Nat × α)} {k : Nat}
    (v : α) (h : lookupA m k = none) :
    keyCount (emplaceA m k v).1 k = keyCount m k + 1 := by
  unfold emplaceA
  rw [h]
  unfold keyCount
  rw [List.countP_append]
  simp

/-! ## Branch characterizations of the operations -/

theorem useProgVS_hit (env : Env) (s : MgrState) (cfg : Nat) {r : Option Nat}
    (h : lookupA s.shaders_ref (env.hashVSKey cfg) = some r) :
    useProgrammableVertexShader env s cfg =
      ({ s with current_vs := r.map StageRef.cached }, [], r.isSome) := by
  simp only [useProgrammableVertexShader, h]

theorem useProgVS_miss_empty (env : Env) (s : MgrState) (cfg : Nat)
    (h : lookupA s.shaders_ref (env.hashVSKey cfg) = none)
    (he : env.genVS cfg = "") :
    useProgrammableVertexShader env s cfg =
      ({ s with shaders_ref := (env.hashVSKey cfg, none) :: s.shaders_ref,
                current_vs := none }, [Ev.genVS cfg], false) := by
  simp only [useProgrammableVertexShader, h]
  rw [if_pos he]

theorem useProgVS_miss_dup (env : Env) (s : MgrState) (cfg : Nat)
    (h : lookupA s.shaders_ref (env.hashVSKey cfg) = none)
    (he : env.genVS cfg ≠ "") {st : OGLShaderStage}
    (hs : lookupA s.shaders (env.hashCode (env.genVS cfg)) = some st) :
    useProgrammableVertexShader env s cfg =
      ({ s with shaders_ref :=
                  (env.hashVSKey cfg, some (env.hashCode (env.genVS cfg))) ::
                    s.shaders_ref,
                current_vs :=
                  some (StageRef.cached (env.hashCode (env.genVS cfg))) },
       [Ev.genVS cfg], true) := by
  simp only [useProgrammableVertexShader, h]
  rw [if_neg he, hs]

theorem useProgVS_miss_new (env : Env) (s : MgrState) (cfg : Nat)
    (h : lookupA s.shaders_ref (env.hashVSKey cfg) = none)
    (he : env.genVS cfg ≠ "")
    (hs : lookupA s.shaders (env.hashCode (env.genVS cfg)) = none) :
    useProgrammableVertexShader env s cfg =
      ({ s with shaders :=
                  s.shaders ++
                    [(env.hashCode (env.genVS cfg),
                      ⟨env.hashCode (env.genVS cfg), s.next_handle⟩)],
                shaders_ref :=
                  (env.hashVSKey cfg, some (env.hashCode (env.genVS cfg))) ::
                    s.shaders_ref,
                current_vs :=
                  some (StageRef.cached (env.hashCode (env.genVS cfg))),
                next_handle := s.next_handle + 1 },
       [Ev.genVS cfg, Ev.compile (env.hashCode (env.genVS cfg))], true) := by
  simp only [useProgrammableVertexShader, h]
  rw [if_neg he, hs]

theorem useFixedGS_hit (env : Env) (s : MgrState) (cfg : Nat) {st : OGLShaderStage}
    (h : lookupA s.shaders (env.hashGSKey cfg) = some st) :
    useFixedGeometryShader env s cfg =
      ({ s with current_gs := some (StageRef.cached (env.hashGSKey cfg)) }, []) := by
  simp only [useFixedGeometryShader, h]

theorem useFixedGS_new (env : Env) (s : MgrState) (cfg : Nat)
    (h : lookupA s.shaders (env.hashGSKey cfg) = none) :
    useFixedGeometryShader env s cfg =
      ({ s with shaders :=
                  s.shaders ++
                    [(env.hashGSKey cfg, ⟨env.hashGSKey cfg, s.next_handle⟩)],
                current_gs := some (StageRef.cached (env.hashGSKey cfg)),
                next_handle := s.next_handle + 1 },
       [Ev.genGS cfg, Ev.compile (env.hashGSKey cfg)]) := by
  simp only [useFixedGeometryShader, h]

theorem useFS_hit (env : Env) (s : MgrState) (cfg : Nat) {r : Option Nat}
    (h : lookupA s.shaders_ref (env.hashFSKey cfg) = some r) :
    useFragmentShader env s cfg =
      ({ s with current_fs := r.map StageRef.cached }, []) := by
  simp only [useFragmentShader, h]

theorem useFS_miss_dup (env : Env) (s : MgrState) (cfg : Nat)
    (h : lookupA s.shaders_ref (env.hashFSKey cfg) = none) {st : OGLShaderStage}
    (hs : lookupA s.shaders (env.hashCode (env.genFS cfg)) = some st) :
    useFragmentShader env s cfg =
      ({ s with shaders_ref :=
                  (env.hashFSKey cfg, some (env.hashCode (env.genFS cfg))) ::
                    s.shaders_ref,
                current_fs :=
                  some (StageRef.cached (env.hashCode (env.genFS cfg))) },
       [Ev.genFS cfg]) := by
  simp only [useFragmentShader, h]
  rw [hs]

theorem useFS_miss_new (env : Env) (s : MgrState) (cfg : Nat)
    (h : lookupA s.shaders_ref (env.hashFSKey cfg) = none)
    (hs : lookupA s.shaders (env.hashCode (env.genFS cfg)) = none) :
    useFragmentShader env s cfg =
      ({ s with shaders :=
                  s.shaders ++
                    [(env.hashCode (env.genFS cfg),
                      ⟨env.hashCode (env.genFS cfg), s.next_handle⟩)],
                shaders_ref :=
                  (env.hashFSKey cfg, some (env.hashCode (env.genFS cfg))) ::
                    s.shaders_ref,
                current_fs :=
                  some (StageRef.cached (env.hashCode (env.genFS cfg))),
                next_handle := s.next_handle + 1 },
       [Ev.genFS cfg, Ev.compile (env.hashCode (env.genFS cfg))]) := by
  simp only [useFragmentShader, h]
  rw [hs]

theorem applyTo_null (env : Env) (s : MgrState)
    (h : s.current_vs = none ∨ s.current_gs = none ∨ s.current_fs = none) :
    applyTo env s = none := by
  unfold applyTo
  rcases h with h | h | h
  · rw [h]
  · rw [h]
    cases s.current_vs <;> rfl
  · rw [h]
    cases s.current_vs <;> cases s.current_gs <;> rfl

theorem applyTo_sep (env : Env) (s : MgrState) {rv rg rf : StageRef}
    {sv sg sf : OGLShaderStage}
    (hv : s.current_vs = some rv) (hg : s.current_gs = some rg)
    (hf : s.current_fs = some rf)
    (dv : derefStage s rv = some sv) (dg : derefStage s rg = some sg)
    (df : derefStage s rf = some sf) (hsep : s.separable = true) :
    applyTo env s =
      some (s, ⟨0, s.pipeline_handle⟩,
        (if s.is_amd then [Ev.clearStages] else []) ++
          [Ev.useStages sv.handle sg.handle sf.handle]) := by
  unfold applyTo
  rw [hv, hg, hf]
  simp only [dv, dg, df]
  rw [if_pos hsep]

theorem applyTo_mono_hit (env : Env) (s : MgrState) {rv rg rf : StageRef}
    {sv sg sf : OGLShaderStage} {p : Nat}
    (hv : s.current_vs = some rv) (hg : s.current_gs = some rg)
    (hf : s.current_fs = some rf)
    (dv : derefStage s rv = some sv) (dg : derefStage s rg = some sg)
    (df : derefStage s rf = some sf) (hsep : s.separable = false)
    (hp : lookupA s.program_cache (env.hashTriple sv.hash sg.hash sf.hash) = some p)
    (hpz : p ≠ 0) :
    applyTo env s = some (s, ⟨p, 0⟩, []) := by
  unfold applyTo
  rw [hv, hg, hf]
  simp only [dv, dg, df, hsep, hp, Option.getD_some, Bool.false_eq_true, if_false]
  rw [if_neg hpz]

theorem applyTo_mono_miss (env : Env) (s : MgrState) {rv rg rf : StageRef}
    {sv sg sf : OGLShaderStage}
    (hv : s.current_vs = some rv) (hg : s.current_gs = some rg)
    (hf : s.current_fs = some rf)
    (dv : derefStage s rv = some sv) (dg : derefStage s rg = some sg)
    (df : derefStage s rf = some sf) (hsep : s.separable = false)
    (hp : (lookupA s.program_cache (env.hashTriple sv.hash sg.hash sf.hash)).getD 0
            = 0) :
    applyTo env s =
      (fun r =>
        some ({ s with binary_cache := r.2.1,
                       program_cache :=
                         (env.hashTriple sv.hash sg.hash sf.hash, r.1) ::
                           s.program_cache,
                       next_handle := r.2.2.1 },
              ⟨r.1, 0⟩, r.2.2.2 ++ [Ev.bindings r.1]))
        (createProgram env s.binary_cache (env.hashTriple sv.hash sg.hash sf.hash)
          sv.handle sg.handle sf.handle s.next_handle) := by
  unfold applyTo
  rw [hv, hg, hf]
  simp only [dv, dg, df, hsep, Bool.false_eq_true, if_false]
  rw [if_pos hp]

/-! ## Frame lemmas: what each operation leaves untouched -/

theorem createProgram_next (env : Env) (bc : List (Nat × ProgramCacheEntity))
    (h vs gs fs nxt : Nat) :
    (createProgram env bc h vs gs fs nxt).2.2.1 = nxt + 1 := by
  unfold createProgram linkFresh
  repeat' split
  all_goals rfl

theorem useProgVS_frame (env : Env) (s : MgrState) (cfg : Nat) :
    ((useProgrammableVertexShader env s cfg).1.separable = s.separable ∧
     (useProgrammableVertexShader env s cfg).1.is_amd = s.is_amd ∧
     (useProgrammableVertexShader env s cfg).1.trivial_vertex_shader =
       s.trivial_vertex_shader ∧
     (useProgrammableVertexShader env s cfg).1.trivial_geometry_shader =
       s.trivial_geometry_shader ∧
     (useProgrammableVertexShader env s cfg).1.binary_cache = s.binary_cache ∧
     (useProgrammableVertexShader env s cfg).1.program_cache = s.program_cache ∧
     (useProgrammableVertexShader env s cfg).1.pipeline_handle =
       s.pipeline_handle ∧
     (useProgrammableVertexShader env s cfg).1.current_gs = s.current_gs ∧
     (useProgrammableVertexShader env s cfg).1.current_fs = s.current_fs ∧
     s.next_handle ≤ (useProgrammableVertexShader env s cfg).1.next_handle) := by
  cases hl : lookupA s.shaders_ref (env.hashVSKey cfg) with
  | some r => rw [useProgVS_hit env s cfg hl]; simp
  | none =>
    by_cases he : env.genVS cfg = ""
    · rw [useProgVS_miss_empty env s cfg hl he]; simp
    · cases hs : lookupA s.shaders (env.hashCode (env.genVS cfg)) with
      | some st => rw [useProgVS_miss_dup env s cfg hl he hs]; simp
      | none => rw [useProgVS_miss_new env s cfg hl he hs]; simp

theorem useFixedGS_frame (env : Env) (s : MgrState) (cfg : Nat) :
    ((useFixedGeometryShader env s cfg).1.separable = s.separable ∧
     (useFixedGeometryShader env s cfg).1.is_amd = s.is_amd ∧
     (useFixedGeometryShader env s cfg).1.trivial_vertex_shader =
       s.trivial_vertex_shader ∧
     (useFixedGeometryShader env s cfg).1.trivial_geometry_shader =
       s.trivial_geometry_shader ∧
     (useFixedGeometryShader env s cfg).1.binary_cache = s.binary_cache ∧
     (useFixedGeometryShader env s cfg).1.program_cache = s.program_cache ∧
     (useFixedGeometryShader env s cfg).1.pipeline_handle = s.pipeline_handle ∧
     (useFixedGeometryShader env s cfg).1.shaders_ref = s.shaders_ref ∧
     (useFixedGeometryShader env s cfg).1.current_vs = s.current_vs ∧
     (useFixedGeometryShader env s cfg).1.current_fs = s.current_fs ∧
     s.next_handle ≤ (useFixedGeometryShader env s cfg).1.next_handle) := by
  cases hl : lookupA s.shaders (env.hashGSKey cfg) with
  | some st => rw [useFixedGS_hit env s cfg hl]; simp
  | none => rw [useFixedGS_new env s cfg hl]; simp

theorem useFS_frame (env : Env) (s : MgrState) (cfg : Nat) :
    ((useFragmentShader env s cfg).1.separable = s.separable ∧
     (useFragmentShader env s cfg).1.is_amd = s.is_amd ∧
     (useFragmentShader env s cfg).1.trivial_vertex_shader =
       s.trivial_vertex_shader ∧
     (useFragmentShader env s cfg).1.trivial_geometry_shader =
       s.trivial_geometry_shader ∧
     (useFragmentShader env s cfg).1.binary_cache = s.binary_cache ∧
     (useFragmentShader env s cfg).1.program_cache = s.program_cache ∧
     (useFragmentShader env s cfg).1.pipeline_handle = s.pipeline_handle ∧
     (useFragmentShader env s cfg).1.current_vs = s.current_vs ∧
     (useFragmentShader env s cfg).1.current_gs = s.current_gs ∧
     s.next_handle ≤ (useFragmentShader env s cfg).1.next_handle) := by
  cases hl : lookupA s.shaders_ref (env.hashFSKey cfg) with
  | some r => rw [useFS_hit env s cfg hl]; simp
  | none =>
    cases hs : lookupA s.shaders (env.hashCode (env.genFS cfg)) with
    | some st => rw [useFS_miss_dup env s cfg hl hs]; simp
    | none => rw [useFS_miss_new env s cfg hl hs]; simp

theorem applyTo_frame (env : Env) {s t : MgrState} {d : DrawState} {evs : List Ev}
    (h : applyTo env s = some (t, d, evs)) :
    t.separable = s.separable ∧ t.is_amd = s.is_amd ∧
    t.trivial_vertex_shader = s.trivial_vertex_shader ∧
    t.trivial_geometry_shader = s.trivial_geometry_shader ∧
    t.shaders_ref = s.shaders_ref ∧ t.shaders = s.shaders ∧
    t.pipeline_handle = s.pipeline_handle ∧
    t.current_vs = s.current_vs ∧ t.current_gs = s.current_gs ∧
    t.current_fs = s.current_fs ∧ s.next_handle ≤ t.next_handle := by
  simp only [applyTo] at h
  repeat' split at h
  all_goals first
    | exact Option.noConfusion h
    | (simp only [Option.some.injEq, Prod.mk.injEq] at h
       obtain ⟨h1, -, -⟩ := h
       subst h1
       simp [createProgram_next])

/-- `ApplyTo` in separable mode changes nothing at all in the manager
state. -/
theorem applyTo_sep_state (env : Env) {s t : MgrState} {d : DrawState}
    {evs : List Ev} (hsep : s.separable = true)
    (h : applyTo env s = some (t, d, evs)) : t = s := by
  simp only [applyTo] at h
  repeat' split at h
  all_goals first
    | exact Option.noConfusion h
    | (simp only [Option.some.injEq, Prod.mk.injEq] at h
       obtain ⟨h1, -, -⟩ := h
       exact h1.symm)
    | simp_all

/-! ## Monotonicity: recorded resolutions and cached stages persist -/

theorem keyCount_zero_of_none {α : Type} {m : List (Nat × α)} {k : Nat}
    (h : lookupA m k = none) : keyCount m k = 0 := by
  by_contra hne
  have := lookupA_isSome_of_keyCount_pos (Nat.pos_of_ne_zero hne)
  rw [h] at this
  simp at this

theorem keyCount_append_single {α : Type} (m : List (Nat × α)) (k : Nat) (v : α)
    (ch : Nat) :
    keyCount (m ++ [(k, v)]) ch = keyCount m ch + (if k = ch then 1 else 0) := by
  unfold keyCount
  rw [List.countP_append]
  simp [List.countP_cons]

theorem useProgVS_shaders_ref_mono (env : Env) (s : MgrState) (cfg : Nat)
    {kh : Nat} {r : Option Nat} (h : lookupA s.shaders_ref kh = some r) :
    lookupA (useProgrammableVertexShader env s cfg).1.shaders_ref kh = some r := by
  cases hl : lookupA s.shaders_ref (env.hashVSKey cfg) with
  | some r' => rw [useProgVS_hit env s cfg hl]; exact h
  | none =>
    have hne : env.hashVSKey cfg ≠ kh := by
      intro he
      rw [he, h] at hl
      exact Option.noConfusion hl
    by_cases he : env.genVS cfg = ""
    · rw [useProgVS_miss_empty env s cfg hl he]
      simpa [lookupA_cons_ne _ _ hne] using h
    · cases hs : lookupA s.shaders (env.hashCode (env.genVS cfg)) with
      | some st =>
        rw [useProgVS_miss_dup env s cfg hl he hs]
        simpa [lookupA_cons_ne _ _ hne] using h
      | none =>
        rw [useProgVS_miss_new env s cfg hl he hs]
        simpa [lookupA_cons_ne _ _ hne] using h

theorem useFS_shaders_ref_mono (env : Env) (s : MgrState) (cfg : Nat)
    {kh : Nat} {r : Option Nat} (h : lookupA s.shaders_ref kh = some r) :
    lookupA (useFragmentShader env s cfg).1.shaders_ref kh = some r := by
  cases hl : lookupA s.shaders_ref (env.hashFSKey cfg) with
  | some r' => rw [useFS_hit env s cfg hl]; exact h
  | none =>
    have hne : env.hashFSKey cfg ≠ kh := by
      intro he
      rw [he, h] at hl
      exact Option.noConfusion hl
    cases hs : lookupA s.shaders (env.hashCode (env.genFS cfg)) with
    | some st =>
      rw [useFS_miss_dup env s cfg hl hs]
      simpa [lookupA_cons_ne _ _ hne] using h
    | none =>
      rw [useFS_miss_new env s cfg hl hs]
      simpa [lookupA_cons_ne _ _ hne] using h

theorem useProgVS_shaders_mono (env : Env) (s : MgrState) (cfg : Nat)
    {ch : Nat} {st : OGLShaderStage} (h : lookupA s.shaders ch = some st) :
    lookupA (useProgrammableVertexShader env s cfg).1.shaders ch = some st := by
  cases hl : lookupA s.shaders_ref (env.hashVSKey cfg) with
  | some r' => rw [useProgVS_hit env s cfg hl]; exact h
  | none =>
    by_cases he : env.genVS cfg = ""
    · rw [useProgVS_miss_empty env s cfg hl he]; exact h
    · cases hs : lookupA s.shaders (env.hashCode (env.genVS cfg)) with
      | some st' => rw [useProgVS_miss_dup env s cfg hl he hs]; exact h
      | none =>
        rw [useProgVS_miss_new env s cfg hl he hs]
        exact lookupA_append_of_some h _

theorem useFixedGS_shaders_mono (env : Env) (s : MgrState) (cfg : Nat)
    {ch : Nat} {st : OGLShaderStage} (h : lookupA s.shaders ch = some st) :
    lookupA (useFixedGeometryShader env s cfg).1.shaders ch = some st := by
  cases hl : lookupA s.shaders (env.hashGSKey cfg) with
  | some st' => rw [useFixedGS_hit env s cfg hl]; exact h
  | none =>
    rw [useFixedGS_new env s cfg hl]
    exact lookupA_append_of_some h _

theorem useFS_shaders_mono (env : Env) (s : MgrState) (cfg : Nat)
    {ch : Nat} {st : OGLShaderStage} (h : lookupA s.shaders ch = some st) :
    lookupA (useFragmentShader env s cfg).1.shaders ch = some st := by
  cases hl : lookupA s.shaders_ref (env.hashFSKey cfg) with
  | some r' => rw [useFS_hit env s cfg hl]; exact h
  | none =>
    cases hs : lookupA s.shaders (env.hashCode (env.genFS cfg)) with
    | some st' => rw [useFS_miss_dup env s cfg hl hs]; exact h
    | none =>
      rw [useFS_miss_new env s cfg hl hs]
      exact lookupA_append_of_some h _

theorem useProgVS_keyCount (env : Env) (s : MgrState) (cfg : Nat) {ch : Nat}
    (h : keyCount s.shaders ch ≤ 1) :
    keyCount (useProgrammableVertexShader env s cfg).1.shaders ch ≤ 1 := by
  cases hl : lookupA s.shaders_ref (env.hashVSKey cfg) with
  | some r' => rw [useProgVS_hit env s cfg hl]; exact h
  | none =>
    by_cases he : env.genVS cfg = ""
    · rw [useProgVS_miss_empty env s cfg hl he]; exact h
    · cases hs : lookupA s.shaders (env.hashCode (env.genVS cfg)) with
      | some st' => rw [useProgVS_miss_dup env s cfg hl he hs]; exact h
      | none =>
        rw [useProgVS_miss_new env s cfg hl he hs]
        simp only [keyCount_append_single]
        by_cases hc : env.hashCode (env.genVS cfg) = ch
        · rw [if_pos hc]
          rw [hc] at hs
          rw [keyCount_zero_of_none hs]
        · rw [if_neg hc]
          omega

theorem useFixedGS_keyCount (env : Env) (s : MgrState) (cfg : Nat) {ch : Nat}
    (h : keyCount s.shaders ch ≤ 1) :
    keyCount (useFixedGeometryShader env s cfg).1.shaders ch ≤ 1 := by
  cases hl : lookupA s.shaders (env.hashGSKey cfg) with
  | some st' => rw [useFixedGS_hit env s cfg hl]; exact h
  | none =>
    rw [useFixedGS_new env s cfg hl]
    simp only [keyCount_append_single]
    by_cases hc : env.hashGSKey cfg = ch
    · rw [if_pos hc]
      rw [hc] at hl
      rw [keyCount_zero_of_none hl]
    · rw [if_neg hc]
      omega

theorem useFS_keyCount (env : Env) (s : MgrState) (cfg : Nat) {ch : Nat}
    (h : keyCount s.shaders ch ≤ 1) :
    keyCount (useFragmentShader env s cfg).1.shaders ch ≤ 1 := by
  cases hl : lookupA s.shaders_ref (env.hashFSKey cfg) with
  | some r' => rw [useFS_hit env s cfg hl]; exact h
  | none =>
    cases hs : lookupA s.shaders (env.hashCode (env.genFS cfg)) with
    | some st' => rw [useFS_miss_dup env s cfg hl hs]; exact h
    | none =>
      rw [useFS_miss_new env s cfg hl hs]
      simp only [keyCount_append_single]
      by_cases hc : env.hashCode (env.genFS cfg) = ch
      · rw [if_pos hc]
        rw [hc] at hs
        rw [keyCount_zero_of_none hs]
      · rw [if_neg hc]
        omega

/-! ## Counting compiles and program creations -/

/-- `cached_program.handle` as `ApplyTo` reads it: the cached handle, or
0 when the hash is absent (`operator[]` default-constructs). -/
def pcObj (s : MgrState) (h : Nat) : Nat :=
  (lookupA s.program_cache h).getD 0

/-- 1 iff a linked program for hash `h` exists (nonzero handle). -/
def pcFlag (s : MgrState) (h : Nat) : Nat :=
  if pcObj s h = 0 then 0 else 1

/-- 1 iff a stage object for key `ch` exists in the `shaders` cache. -/
def shFlag (s : MgrState) (ch : Nat) : Nat :=
  if (lookupA s.shaders ch).isSome then 1 else 0

theorem createProgram_handle (env : Env) (bc : List (Nat × ProgramCacheEntity))
    (h vs gs fs nxt : Nat) :
    (createProgram env bc h vs gs fs nxt).1 = nxt := by
  unfold createProgram linkFresh
  repeat' split
  all_goals rfl

theorem createProgram_trace (env : Env) (bc : List (Nat × ProgramCacheEntity))
    (h vs gs fs nxt : Nat) :
    (createProgram env bc h vs gs fs nxt).2.2.2 = [Ev.install h] ∨
    (createProgram env bc h vs gs fs nxt).2.2.2 = [Ev.link h vs gs fs] := by
  unfold createProgram linkFresh
  repeat' split
  all_goals simp

theorem pcFlag_le_one (s : MgrState) (h : Nat) : pcFlag s h ≤ 1 := by
  unfold pcFlag
  split <;> omega

theorem shFlag_le_one (s : MgrState) (ch : Nat) : shFlag s ch ≤ 1 := by
  unfold shFlag
  split <;> omega

theorem useProgVS_compile_bound (env : Env) (s : MgrState) (cfg : Nat) (ch : Nat) :
    compileCount (useProgrammableVertexShader env s cfg).2.1 ch + shFlag s ch ≤
      shFlag (useProgrammableVertexShader env s cfg).1 ch := by
  cases hl : lookupA s.shaders_ref (env.hashVSKey cfg) with
  | some r' =>
    rw [useProgVS_hit env s cfg hl]
    simp [compileCount, shFlag]
  | none =>
    by_cases he : env.genVS cfg = ""
    · rw [useProgVS_miss_empty env s cfg hl he]
      simp [compileCount, shFlag, isCompile]
    · cases hs : lookupA s.shaders (env.hashCode (env.genVS cfg)) with
      | some st' =>
        rw [useProgVS_miss_dup env s cfg hl he hs]
        simp [compileCount, shFlag, isCompile]
      | none =>
        rw [useProgVS_miss_new env s cfg hl he hs]
        simp only [compileCount, shFlag, List.countP_cons, List.countP_nil]
        by_cases hc : env.hashCode (env.genVS cfg) = ch
        · rw [hc] at hs ⊢
          rw [lookupA_append_of_none hs]
          simp [isCompile, hs, lookupA]
        · have : lookupA (s.shaders ++
              [(env.hashCode (env.genVS cfg),
                (⟨env.hashCode (env.genVS cfg), s.next_handle⟩ : OGLShaderStage))]) ch
              = lookupA s.shaders ch := by
            cases hch : lookupA s.shaders ch with
            | some st => exact lookupA_append_of_some hch _
            | none =>
              rw [lookupA_append_of_none hch]
              simp [lookupA, hc]
          rw [this]
          simp [isCompile, hc]

theorem useFixedGS_compile_bound (env : Env) (s : MgrState) (cfg : Nat) (ch : Nat) :
    compileCount (useFixedGeometryShader env s cfg).2 ch + shFlag s ch ≤
      shFlag (useFixedGeometryShader env s cfg).1 ch := by
  cases hl : lookupA s.shaders (env.hashGSKey cfg) with
  | some st' =>
    rw [useFixedGS_hit env s cfg hl]
    simp [compileCount, shFlag]
  | none =>
    rw [useFixedGS_new env s cfg hl]
    simp only [compileCount, shFlag, List.countP_cons, List.countP_nil]
    by_cases hc : env.hashGSKey cfg = ch
    · rw [hc] at hl ⊢
      rw [lookupA_append_of_none hl]
      simp [isCompile, hl, lookupA]
    · have : lookupA (s.shaders ++
          [(env.hashGSKey cfg,
            (⟨env.hashGSKey cfg, s.next_handle⟩ : OGLShaderStage))]) ch
          = lookupA s.shaders ch := by
        cases hch : lookupA s.shaders ch with
        | some st => exact lookupA_append_of_some hch _
        | none =>
          rw [lookupA_append_of_none hch]
          simp [lookupA, hc]
      rw [this]
      simp [isCompile, hc]

theorem useFS_compile_bound (env : Env) (s : MgrState) (cfg : Nat) (ch : Nat) :
    compileCount (useFragmentShader env s cfg).2 ch + shFlag s ch ≤
      shFlag (useFragmentShader env s cfg).1 ch := by
  cases hl : lookupA s.shaders_ref (env.hashFSKey cfg) with
  | some r' =>
    rw [useFS_hit env s cfg hl]
    simp [compileCount, shFlag]
  | none =>
    cases hs : lookupA s.shaders (env.hashCode (env.genFS cfg)) with
    | some st' =>
      rw [useFS_miss_dup env s cfg hl hs]
      simp [compileCount, shFlag, isCompile]
    | none =>
      rw [useFS_miss_new env s cfg hl hs]
      simp only [compileCount, shFlag, List.countP_cons, List.countP_nil]
      by_cases hc : env.hashCode (env.genFS cfg) = ch
      · rw [hc] at hs ⊢
        rw [lookupA_append_of_none hs]
        simp [isCompile, hs, lookupA]
      · have : lookupA (s.shaders ++
            [(env.hashCode (env.genFS cfg),
              (⟨env.hashCode (env.genFS cfg), s.next_handle⟩ : OGLShaderStage))]) ch
            = lookupA s.shaders ch := by
          cases hch : lookupA s.shaders ch with
          | some st => exact lookupA_append_of_some hch _
          | none =>
            rw [lookupA_append_of_none hch]
            simp [lookupA, hc]
        rw [this]
        simp [isCompile, hc]

theorem applyTo_deref_none (env : Env) (s : MgrState) {rv rg rf : StageRef}
    (hv : s.current_vs = some rv) (hg : s.current_gs = some rg)
    (hf : s.current_fs = some rf)
    (hd : derefStage s rv = none ∨ derefStage s rg = none ∨
          derefStage s rf = none) :
    applyTo env s = none := by
  unfold applyTo
  rw [hv, hg, hf]
  cases dv' : derefStage s rv <;> cases dg' : derefStage s rg <;>
    cases df' : derefStage s rf <;> rcases hd with hd | hd | hd <;> simp_all

/-- Combined per-call bounds for `ApplyTo`: it never compiles a stage,
and it creates the linked program for a hash at most once (and only when
none existed). -/
theorem applyTo_bounds (env : Env) {s t : MgrState} {d : DrawState}
    {evs : List Ev} (hn : 0 < s.next_handle)
    (h : applyTo env s = some (t, d, evs)) :
    (∀ ch, compileCount evs ch = 0) ∧
    (∀ hh, createCount evs hh + pcFlag s hh ≤ pcFlag t hh) := by
  cases hv : s.current_vs with
  | none => rw [applyTo_null env s (Or.inl hv)] at h; exact Option.noConfusion h
  | some rv =>
  cases hg : s.current_gs with
  | none =>
    rw [applyTo_null env s (Or.inr (Or.inl hg))] at h
    exact Option.noConfusion h
  | some rg =>
  cases hf : s.current_fs with
  | none =>
    rw [applyTo_null env s (Or.inr (Or.inr hf))] at h
    exact Option.noConfusion h
  | some rf =>
  cases dv : derefStage s rv with
  | none =>
    rw [applyTo_deref_none env s hv hg hf (Or.inl dv)] at h
    exact Option.noConfusion h
  | some sv =>
  cases dg : derefStage s rg with
  | none =>
    rw [applyTo_deref_none env s hv hg hf (Or.inr (Or.inl dg))] at h
    exact Option.noConfusion h
  | some sg =>
  cases df : derefStage s rf with
  | none =>
    rw [applyTo_deref_none env s hv hg hf (Or.inr (Or.inr df))] at h
    exact Option.noConfusion h
  | some sf =>
  cases hsep : s.separable with
  | true =>
    rw [applyTo_sep env s hv hg hf dv dg df hsep] at h
    simp only [Option.some.injEq, Prod.mk.injEq] at h
    obtain ⟨h1, -, h3⟩ := h
    subst h1
    constructor
    · intro ch
      rw [← h3]
      cases s.is_amd <;> simp [compileCount, isCompile]
    · intro hh
      rw [← h3]
      cases s.is_amd <;> simp [createCount, isCreate]
  | false =>
    by_cases hz : pcObj s (env.hashTriple sv.hash sg.hash sf.hash) = 0
    · rw [applyTo_mono_miss env s hv hg hf dv dg df hsep hz] at h
      simp only [Option.some.injEq, Prod.mk.injEq] at h
      obtain ⟨h1, -, h3⟩ := h
      subst h1
      constructor
      · intro ch
        rw [← h3]
        rcases createProgram_trace env s.binary_cache
            (env.hashTriple sv.hash sg.hash sf.hash) sv.handle sg.handle
            sf.handle s.next_handle with ht | ht <;>
          simp [compileCount, isCompile, List.countP_append, ht]
      · intro hh
        rw [← h3]
        have hph := createProgram_handle env s.binary_cache
          (env.hashTriple sv.hash sg.hash sf.hash) sv.handle sg.handle
          sf.handle s.next_handle
        by_cases hc : env.hashTriple sv.hash sg.hash sf.hash = hh
        · subst hc
          have h0 : pcFlag s (env.hashTriple sv.hash sg.hash sf.hash) = 0 := by
            simp [pcFlag, hz]
          have h1' : pcFlag
              { s with
                binary_cache := (createProgram env s.binary_cache
                  (env.hashTriple sv.hash sg.hash sf.hash) sv.handle sg.handle
                  sf.handle s.next_handle).2.1,
                program_cache := (env.hashTriple sv.hash sg.hash sf.hash,
                  (createProgram env s.binary_cache
                    (env.hashTriple sv.hash sg.hash sf.hash) sv.handle sg.handle
                    sf.handle s.next_handle).1) :: s.program_cache,
                next_handle := (createProgram env s.binary_cache
                  (env.hashTriple sv.hash sg.hash sf.hash) sv.handle sg.handle
                  sf.handle s.next_handle).2.2.1 }
              (env.hashTriple sv.hash sg.hash sf.hash) = 1 := by
            simp [pcFlag, pcObj, lookupA, hph]
            omega
          rw [h0, h1']
          rcases createProgram_trace env s.binary_cache
              (env.hashTriple sv.hash sg.hash sf.hash) sv.handle sg.handle
              sf.handle s.next_handle with ht | ht <;>
            simp [createCount, isCreate, List.countP_append, ht]
        · have hcc : createCount ((createProgram env s.binary_cache
              (env.hashTriple sv.hash sg.hash sf.hash) sv.handle sg.handle
              sf.handle s.next_handle).2.2.2 ++
              [Ev.bindings (createProgram env s.binary_cache
                (env.hashTriple sv.hash sg.hash sf.hash) sv.handle sg.handle
                sf.handle s.next_handle).1]) hh = 0 := by
            rcases createProgram_trace env s.binary_cache
                (env.hashTriple sv.hash sg.hash sf.hash) sv.handle sg.handle
                sf.handle s.next_handle with ht | ht <;>
              simp [createCount, isCreate, List.countP_append, ht, hc]
          rw [hcc]
          have : pcFlag
              { s with
                binary_cache := (createProgram env s.binary_cache
                  (env.hashTriple sv.hash sg.hash sf.hash) sv.handle sg.handle
                  sf.handle s.next_handle).2.1,
                program_cache := (env.hashTriple sv.hash sg.hash sf.hash,
                  (createProgram env s.binary_cache
                    (env.hashTriple sv.hash sg.hash sf.hash) sv.handle sg.handle
                    sf.handle s.next_handle).1) :: s.program_cache,
                next_handle := (createProgram env s.binary_cache
                  (env.hashTriple sv.hash sg.hash sf.hash) sv.handle sg.handle
                  sf.handle s.next_handle).2.2.1 }
              hh = pcFlag s hh := by
            simp [pcFlag, pcObj, lookupA_cons_ne _ _ hc]
          rw [this]
          omega
    · have hp : ∃ p, lookupA s.program_cache
          (env.hashTriple sv.hash sg.hash sf.hash) = some p ∧ p ≠ 0 := by
        unfold pcObj at hz
        cases hl : lookupA s.program_cache
            (env.hashTriple sv.hash sg.hash sf.hash) with
        | none => rw [hl] at hz; simp at hz
        | some p =>
          rw [hl] at hz
          exact ⟨p, rfl, by simpa using hz⟩
      obtain ⟨p, hp1, hp2⟩ := hp
      rw [applyTo_mono_hit env s hv hg hf dv dg df hsep hp1 hp2] at h
      simp only [Option.some.injEq, Prod.mk.injEq] at h
      obtain ⟨h1, -, h3⟩ := h
      subst h1
      subst h3
      constructor
      · intro ch
        rfl
      · intro hh
        have hz0 : createCount ([] : List Ev) hh = 0 := rfl
        rw [hz0]
        omega

/-! ## Step-level invariant preservation -/

/-- Case analysis on a successful step: each public call is one of the
six operations. -/
theorem step_inv (env : Env) {s : MgrState} {op : Op} {s' : MgrState}
    {evs : List Ev} (hst : step env s op = some (s', evs)) :
    (∃ cfg, s' = (useProgrammableVertexShader env s cfg).1 ∧
            evs = (useProgrammableVertexShader env s cfg).2.1) ∨
    (∃ cfg, s' = (useFixedGeometryShader env s cfg).1 ∧
            evs = (useFixedGeometryShader env s cfg).2) ∨
    (∃ cfg, s' = (useFragmentShader env s cfg).1 ∧
            evs = (useFragmentShader env s cfg).2) ∨
    (s' = useTrivialVertexShader s ∧ evs = []) ∨
    (s' = useTrivialGeometryShader s ∧ evs = []) ∨
    (∃ d, applyTo env s = some (s', d, evs)) := by
  cases op with
  | progVS cfg =>
    simp only [step, Option.some.injEq, Prod.mk.injEq] at hst
    exact Or.inl ⟨cfg, hst.1.symm, hst.2.symm⟩
  | fixedGS cfg =>
    simp only [step, Option.some.injEq, Prod.ext_iff] at hst
    exact Or.inr (Or.inl ⟨cfg, hst.1.symm, hst.2.symm⟩)
  | fragFS cfg =>
    simp only [step, Option.some.injEq, Prod.ext_iff] at hst
    exact Or.inr (Or.inr (Or.inl ⟨cfg, hst.1.symm, hst.2.symm⟩))
  | trivVS =>
    simp only [step, Option.some.injEq, Prod.mk.injEq] at hst
    exact Or.inr (Or.inr (Or.inr (Or.inl ⟨hst.1.symm, hst.2.symm⟩)))
  | trivGS =>
    simp only [step, Option.some.injEq, Prod.mk.injEq] at hst
    exact Or.inr (Or.inr (Or.inr (Or.inr (Or.inl ⟨hst.1.symm, hst.2.symm⟩))))
  | apply =>
    simp only [step] at hst
    cases ha : applyTo env s with
    | none => rw [ha] at hst; exact Option.noConfusion hst
    | some r =>
      rw [ha] at hst
      obtain ⟨t, d, e⟩ := r
      simp only [Option.map_some', Option.some.injEq, Prod.mk.injEq] at hst
      obtain ⟨h1, h2⟩ := hst
      subst h1
      subst h2
      exact Or.inr (Or.inr (Or.inr (Or.inr (Or.inr ⟨d, rfl⟩))))

/-- A step preserves the manager's fixed configuration and never lowers
the handle counter. -/
theorem step_frame (env : Env) {s : MgrState} {op : Op} {s' : MgrState}
    {evs : List Ev} (hst : step env s op = some (s', evs)) :
    s'.separable = s.separable ∧ s'.is_amd = s.is_amd ∧
    s'.trivial_vertex_shader = s.trivial_vertex_shader ∧
    s'.trivial_geometry_shader = s.trivial_geometry_shader ∧
    s'.pipeline_handle = s.pipeline_handle ∧
    s.next_handle ≤ s'.next_handle := by
  rcases step_inv env hst with ⟨cfg, h1, -⟩ | ⟨cfg, h1, -⟩ | ⟨cfg, h1, -⟩ |
    ⟨h1, -⟩ | ⟨h1, -⟩ | ⟨d, ha⟩
  · subst h1
    obtain ⟨a, b, c, d', -, -, e, -, -, f⟩ := useProgVS_frame env s cfg
    exact ⟨a, b, c, d', e, f⟩
  · subst h1
    obtain ⟨a, b, c, d', -, -, e, -, -, -, f⟩ := useFixedGS_frame env s cfg
    exact ⟨a, b, c, d', e, f⟩
  · subst h1
    obtain ⟨a, b, c, d', -, -, e, -, -, f⟩ := useFS_frame env s cfg
    exact ⟨a, b, c, d', e, f⟩
  · subst h1
    exact ⟨rfl, rfl, rfl, rfl, rfl, Nat.le_refl _⟩
  · subst h1
    exact ⟨rfl, rfl, rfl, rfl, rfl, Nat.le_refl _⟩
  · obtain ⟨a, b, c, d', -, -, e, -, -, -, f⟩ := applyTo_frame env ha
    exact ⟨a, b, c, d', e, f⟩

/-- A step never removes or changes a recorded config-key resolution. -/
theorem step_shaders_ref_mono (env : Env) {s : MgrState} {op : Op}
    {s' : MgrState} {evs : List Ev} (hst : step env s op = some (s', evs))
    {kh : Nat} {r : Option Nat} (h : lookupA s.shaders_ref kh = some r) :
    lookupA s'.shaders_ref kh = some r := by
  rcases step_inv env hst with ⟨cfg, h1, -⟩ | ⟨cfg, h1, -⟩ | ⟨cfg, h1, -⟩ |
    ⟨h1, -⟩ | ⟨h1, -⟩ | ⟨d, ha⟩
  · subst h1
    exact useProgVS_shaders_ref_mono env s cfg h
  · subst h1
    rw [(useFixedGS_frame env s cfg).2.2.2.2.2.2.2.1]
    exact h
  · subst h1
    exact useFS_shaders_ref_mono env s cfg h
  · subst h1
    exact h
  · subst h1
    exact h
  · rw [(applyTo_frame env ha).2.2.2.2.1]
    exact h

/-- A step never removes or changes a cached stage object. -/
theorem step_shaders_mono (env : Env) {s : MgrState} {op : Op}
    {s' : MgrState} {evs : List Ev} (hst : step env s op = some (s', evs))
    {ch : Nat} {st : OGLShaderStage} (h : lookupA s.shaders ch = some st) :
    lookupA s'.shaders ch = some st := by
  rcases step_inv env hst with ⟨cfg, h1, -⟩ | ⟨cfg, h1, -⟩ | ⟨cfg, h1, -⟩ |
    ⟨h1, -⟩ | ⟨h1, -⟩ | ⟨d, ha⟩
  · subst h1
    exact useProgVS_shaders_mono env s cfg h
  · subst h1
    exact useFixedGS_shaders_mono env s cfg h
  · subst h1
    exact useFS_shaders_mono env s cfg h
  · subst h1
    exact h
  · subst h1
    exact h
  · rw [(applyTo_frame env ha).2.2.2.2.2.1]
    exact h

/-- A step keeps the `shaders` cache key-unique. -/
theorem step_keyCount (env : Env) {s : MgrState} {op : Op} {s' : MgrState}
    {evs : List Ev} (hst : step env s op = some (s', evs)) {ch : Nat}
    (h : keyCount s.shaders ch ≤ 1) : keyCount s'.shaders ch ≤ 1 := by
  rcases step_inv env hst with ⟨cfg, h1, -⟩ | ⟨cfg, h1, -⟩ | ⟨cfg, h1, -⟩ |
    ⟨h1, -⟩ | ⟨h1, -⟩ | ⟨d, ha⟩
  · subst h1
    exact useProgVS_keyCount env s cfg h
  · subst h1
    exact useFixedGS_keyCount env s cfg h
  · subst h1
    exact useFS_keyCount env s cfg h
  · subst h1
    exact h
  · subst h1
    exact h
  · rw [(applyTo_frame env ha).2.2.2.2.2.1]
    exact h

/-- In separable mode a step never touches the linked-program cache or
the persisted-blob table. -/
theorem step_sep_caches (env : Env) {s : MgrState} {op : Op} {s' : MgrState}
    {evs : List Ev} (hst : step env s op = some (s', evs))
    (hsep : s.separable = true) :
    s'.binary_cache = s.binary_cache ∧ s'.program_cache = s.program_cache := by
  rcases step_inv env hst with ⟨cfg, h1, -⟩ | ⟨cfg, h1, -⟩ | ⟨cfg, h1, -⟩ |
    ⟨h1, -⟩ | ⟨h1, -⟩ | ⟨d, ha⟩
  · subst h1
    exact ⟨(useProgVS_frame env s cfg).2.2.2.2.1,
           (useProgVS_frame env s cfg).2.2.2.2.2.1⟩
  · subst h1
    exact ⟨(useFixedGS_frame env s cfg).2.2.2.2.1,
           (useFixedGS_frame env s cfg).2.2.2.2.2.1⟩
  · subst h1
    exact ⟨(useFS_frame env s cfg).2.2.2.2.1,
           (useFS_frame env s cfg).2.2.2.2.2.1⟩
  · subst h1
    exact ⟨rfl, rfl⟩
  · subst h1
    exact ⟨rfl, rfl⟩
  · rw [applyTo_sep_state env hsep ha]
    exact ⟨rfl, rfl⟩

/-- Per-step compile bound: a step compiles source `ch` at most once, and
only if no stage object for `ch` existed; afterwards one exists. -/
theorem step_compile_bound (env : Env) {s : MgrState} {op : Op} {s' : MgrState}
    {evs : List Ev} (hst : step env s op = some (s', evs))
    (hn : 0 < s.next_handle) (ch : Nat) :
    compileCount evs ch + shFlag s ch ≤ shFlag s' ch := by
  rcases step_inv env hst with ⟨cfg, h1, h2⟩ | ⟨cfg, h1, h2⟩ | ⟨cfg, h1, h2⟩ |
    ⟨h1, h2⟩ | ⟨h1, h2⟩ | ⟨d, ha⟩
  · subst h1
    subst h2
    exact useProgVS_compile_bound env s cfg ch
  · subst h1
    subst h2
    exact useFixedGS_compile_bound env s cfg ch
  · subst h1
    subst h2
    exact useFS_compile_bound env s cfg ch
  · subst h1
    subst h2
    simp [compileCount, useTrivialVertexShader, shFlag]
  · subst h1
    subst h2
    simp [compileCount, useTrivialGeometryShader, shFlag]
  · rw [(applyTo_bounds env hn ha).1 ch]
    unfold shFlag
    rw [(applyTo_frame env ha).2.2.2.2.2.1]
    omega

/-- Per-step linked-program creation bound. -/
theorem step_create_bound (env : Env) {s : MgrState} {op : Op} {s' : MgrState}
    {evs : List Ev} (hst : step env s op = some (s', evs))
    (hn : 0 < s.next_handle) (h : Nat) :
    createCount evs h + pcFlag s h ≤ pcFlag s' h := by
  rcases step_inv env hst with ⟨cfg, h1, h2⟩ | ⟨cfg, h1, h2⟩ | ⟨cfg, h1, h2⟩ |
    ⟨h1, h2⟩ | ⟨h1, h2⟩ | ⟨d, ha⟩
  · subst h1
    subst h2
    have hc : ∀ ch, createCount (useProgrammableVertexShader env s cfg).2.1 ch
        = 0 := by
      intro ch
      cases hl : lookupA s.shaders_ref (env.hashVSKey cfg) with
      | some r' => rw [useProgVS_hit env s cfg hl]; rfl
      | none =>
        by_cases he : env.genVS cfg = ""
        · rw [useProgVS_miss_empty env s cfg hl he]
          simp [createCount, isCreate]
        · cases hs : lookupA s.shaders (env.hashCode (env.genVS cfg)) with
          | some st' =>
            rw [useProgVS_miss_dup env s cfg hl he hs]
            simp [createCount, isCreate]
          | none =>
            rw [useProgVS_miss_new env s cfg hl he hs]
            simp [createCount, isCreate]
    rw [hc h]
    unfold pcFlag pcObj
    rw [(useProgVS_frame env s cfg).2.2.2.2.2.1]
    omega
  · subst h1
    subst h2
    have hc : ∀ ch, createCount (useFixedGeometryShader env s cfg).2 ch = 0 := by
      intro ch
      cases hl : lookupA s.shaders (env.hashGSKey cfg) with
      | some st' => rw [useFixedGS_hit env s cfg hl]; rfl
      | none =>
        rw [useFixedGS_new env s cfg hl]
        simp [createCount, isCreate]
    rw [hc h]
    unfold pcFlag pcObj
    rw [(useFixedGS_frame env s cfg).2.2.2.2.2.1]
    omega
  · subst h1
    subst h2
    have hc : ∀ ch, createCount (useFragmentShader env s cfg).2 ch = 0 := by
      intro ch
      cases hl : lookupA s.shaders_ref (env.hashFSKey cfg) with
      | some r' => rw [useFS_hit env s cfg hl]; rfl
      | none =>
        cases hs : lookupA s.shaders (env.hashCode (env.genFS cfg)) with
        | some st' =>
          rw [useFS_miss_dup env s cfg hl hs]
          simp [createCount, isCreate]
        | none =>
          rw [useFS_miss_new env s cfg hl hs]
          simp [createCount, isCreate]
    rw [hc h]
    unfold pcFlag pcObj
    rw [(useFS_frame env s cfg).2.2.2.2.2.1]
    omega
  · subst h1
    subst h2
    simp only [createCount, List.countP_nil]
    simp [useTrivialVertexShader, pcFlag, pcObj]
  · subst h1
    subst h2
    simp only [createCount, List.countP_nil]
    simp [useTrivialGeometryShader, pcFlag, pcObj]
  · exact (applyTo_bounds env hn ha).2 h

/-! ## Run-level lemmas -/

theorem compileCount_append (e1 e2 : List Ev) (ch : Nat) :
    compileCount (e1 ++ e2) ch = compileCount e1 ch + compileCount e2 ch :=
  List.countP_append _ _ _

theorem createCount_append (e1 e2 : List Ev) (h : Nat) :
    createCount (e1 ++ e2) h = createCount e1 h + createCount e2 h :=
  List.countP_append _ _ _

theorem run_nil_inv (env : Env) {s s' : MgrState} {evs : List Ev}
    (h : run env s [] = some (s', evs)) : s' = s ∧ evs = [] := by
  simp only [run, Option.some.injEq, Prod.mk.injEq] at h
  exact ⟨h.1.symm, h.2.symm⟩

theorem run_cons_inv (env : Env) {s : MgrState} {op : Op} {ops : List Op}
    {s' : MgrState} {evs : List Ev}
    (h : run env s (op :: ops) = some (s', evs)) :
    ∃ s1 evs1 evs2, step env s op = some (s1, evs1) ∧
      run env s1 ops = some (s', evs2) ∧ evs = evs1 ++ evs2 := by
  unfold run at h
  cases hstep : step env s op with
  | none => rw [hstep] at h; exact Option.noConfusion h
  | some r =>
    rw [hstep] at h
    obtain ⟨s1, e1⟩ := r
    replace h : Option.map (fun r => (r.1, e1 ++ r.2)) (run env s1 ops)
        = some (s', evs) := h
    cases hrun : run env s1 ops with
    | none =>
      rw [hrun] at h
      exact Option.noConfusion h
    | some r2 =>
      rw [hrun] at h
      obtain ⟨s2, e2⟩ := r2
      simp only [Option.map_some', Option.some.injEq, Prod.mk.injEq] at h
      exact ⟨s1, e1, e2, rfl, by rw [hrun, h.1], h.2.symm⟩

theorem run_frame (env : Env) {s : MgrState} {ops : List Op} {s' : MgrState}
    {evs : List Ev} (h : run env s ops = some (s', evs)) :
    s'.separable = s.separable ∧ s'.is_amd = s.is_amd ∧
    s'.trivial_vertex_shader = s.trivial_vertex_shader ∧
    s'.trivial_geometry_shader = s.trivial_geometry_shader ∧
    s'.pipeline_handle = s.pipeline_handle ∧
    s.next_handle ≤ s'.next_handle := by
  induction ops generalizing s evs with
  | nil =>
    obtain ⟨h1, -⟩ := run_nil_inv env h
    subst h1
    exact ⟨rfl, rfl, rfl, rfl, rfl, Nat.le_refl _⟩
  | cons op ops ih =>
    obtain ⟨s1, e1, e2, hstep, hrun, -⟩ := run_cons_inv env h
    obtain ⟨a1, b1, c1, d1, e1', f1⟩ := step_frame env hstep
    obtain ⟨a2, b2, c2, d2, e2', f2⟩ := ih hrun
    exact ⟨a2.trans a1, b2.trans b1, c2.trans c1, d2.trans d1, e2'.trans e1',
           f1.trans f2⟩

theorem run_shaders_ref_mono (env : Env) {s : MgrState} {ops : List Op}
    {s' : MgrState} {evs : List Ev} (h : run env s ops = some (s', evs))
    {kh : Nat} {r : Option Nat} (hl : lookupA s.shaders_ref kh = some r) :
    lookupA s'.shaders_ref kh = some r := by
  induction ops generalizing s evs with
  | nil =>
    obtain ⟨h1, -⟩ := run_nil_inv env h
    subst h1
    exact hl
  | cons op ops ih =>
    obtain ⟨s1, e1, e2, hstep, hrun, -⟩ := run_cons_inv env h
    exact ih hrun (step_shaders_ref_mono env hstep hl)

theorem run_shaders_mono (env : Env) {s : MgrState} {ops : List Op}
    {s' : MgrState} {evs : List Ev} (h : run env s ops = some (s', evs))
    {ch : Nat} {st : OGLShaderStage} (hl : lookupA s.shaders ch = some st) :
    lookupA s'.shaders ch = some st := by
  induction ops generalizing s evs with
  | nil =>
    obtain ⟨h1, -⟩ := run_nil_inv env h
    subst h1
    exact hl
  | cons op ops ih =>
    obtain ⟨s1, e1, e2, hstep, hrun, -⟩ := run_cons_inv env h
    exact ih hrun (step_shaders_mono env hstep hl)

theorem run_keyCount (env : Env) {s : MgrState} {ops : List Op}
    {s' : MgrState} {evs : List Ev} (h : run env s ops = some (s', evs))
    {ch : Nat} (hk : keyCount s.shaders ch ≤ 1) :
    keyCount s'.shaders ch ≤ 1 := by
  induction ops generalizing s evs with
  | nil =>
    obtain ⟨h1, -⟩ := run_nil_inv env h
    subst h1
    exact hk
  | cons op ops ih =>
    obtain ⟨s1, e1, e2, hstep, hrun, -⟩ := run_cons_inv env h
    exact ih hrun (step_keyCount env hstep hk)

theorem run_sep_caches (env : Env) {s : MgrState} {ops : List Op}
    {s' : MgrState} {evs : List Ev} (h : run env s ops = some (s', evs))
    (hsep : s.separable = true) :
    s'.binary_cache = s.binary_cache ∧ s'.program_cache = s.program_cache := by
  induction ops generalizing s evs with
  | nil =>
    obtain ⟨h1, -⟩ := run_nil_inv env h
    subst h1
    exact ⟨rfl, rfl⟩
  | cons op ops ih =>
    obtain ⟨s1, e1, e2, hstep, hrun, -⟩ := run_cons_inv env h
    have hsep1 : s1.separable = true := (step_frame env hstep).1.trans hsep
    obtain ⟨a1, b1⟩ := step_sep_caches env hstep hsep
    obtain ⟨a2, b2⟩ := ih hrun hsep1
    exact ⟨a2.trans a1, b2.trans b1⟩

theorem run_compile_bound (env : Env) {s : MgrState} {ops : List Op}
    {s' : MgrState} {evs : List Ev} (h : run env s ops = some (s', evs))
    (hn : 0 < s.next_handle) (ch : Nat) :
    compileCount evs ch + shFlag s ch ≤ shFlag s' ch := by
  induction ops generalizing s evs with
  | nil =>
    obtain ⟨h1, h2⟩ := run_nil_inv env h
    subst h1
    subst h2
    simp [compileCount]
  | cons op ops ih =>
    obtain ⟨s1, e1, e2, hstep, hrun, hevs⟩ := run_cons_inv env h
    subst hevs
    have b1 := step_compile_bound env hstep hn ch
    have hn1 : 0 < s1.next_handle :=
      Nat.lt_of_lt_of_le hn (step_frame env hstep).2.2.2.2.2
    have b2 := ih hrun hn1
    rw [compileCount_append]
    omega

theorem run_create_bound (env : Env) {s : MgrState} {ops : List Op}
    {s' : MgrState} {evs : List Ev} (h : run env s ops = some (s', evs))
    (hn : 0 < s.next_handle) (hh : Nat) :
    createCount evs hh + pcFlag s hh ≤ pcFlag s' hh := by
  induction ops generalizing s evs with
  | nil =>
    obtain ⟨h1, h2⟩ := run_nil_inv env h
    subst h1
    subst h2
    simp [createCount]
  | cons op ops ih =>
    obtain ⟨s1, e1, e2, hstep, hrun, hevs⟩ := run_cons_inv env h
    subst hevs
    have b1 := step_create_bound env hstep hn hh
    have hn1 : 0 < s1.next_handle :=
      Nat.lt_of_lt_of_le hn (step_frame env hstep).2.2.2.2.2
    have b2 := ih hrun hn1
    rw [createCount_append]
    omega

/-! ## Serialization lemmas -/

theorem toLE_length (w v : Nat) : (toLE w v).length = w := by
  induction w generalizing v with
  | zero => rfl
  | succ w ih => simp [toLE, ih]

theorem fromLE_toLE {w v : Nat} (h : v < 256 ^ w) : fromLE (toLE w v) = v := by
  induction w generalizing v with
  | zero =>
    rw [pow_zero] at h
    interval_cases v
    rfl
  | succ w ih =>
    have hd : v / 256 < 256 ^ w := by
      apply Nat.div_lt_of_lt_mul
      rw [pow_succ] at h
      omega
    simp only [toLE, fromLE, ih hd]
    omega

theorem readLE_exact {v w : Nat} (hv : v < 256 ^ w) (rest : List Nat)
    (g : Bool) (old : Nat) :
    readLE ⟨toLE w v ++ rest, g⟩ w old = (v, ⟨rest, g⟩) := by
  unfold readLE
  rw [if_pos]
  · have ht : (toLE w v ++ rest).take w = toLE w v :=
      List.take_left' (toLE_length w v)
    have hd : (toLE w v ++ rest).drop w = rest :=
      List.drop_left' (toLE_length w v)
    simp only [ht, hd, fromLE_toLE hv]
  · simp [toLE_length]

theorem readRaw_exact (b rest : List Nat) (g : Bool) :
    readRaw ⟨b ++ rest, g⟩ b.length = (b, ⟨rest, g⟩) := by
  unfold readRaw
  rw [if_pos]
  · rw [List.take_left' rfl, List.drop_left' rfl]
  · simp

theorem loadLoop_entries (rest : List (Nat × ProgramCacheEntity)) :
    ∀ (acc : List (Nat × ProgramCacheEntity)) (h0 f0 l0 : Nat),
    (∀ p ∈ rest, entryWF p) →
    (∀ p ∈ rest, lookupA acc p.1 = none) →
    List.Pairwise (fun a b => a.1 ≠ b.1) rest →
    loadLoop rest.length ⟨entriesBytes rest, true⟩ h0 f0 l0 acc
      = (acc ++ rest, false) := by
  induction rest with
  | nil =>
    intro acc h0 f0 l0 _ _ _
    simp [loadLoop]
  | cons p t ih =>
    intro acc h0 f0 l0 hwf hdisj hnodup
    obtain ⟨hk, hf, hl⟩ := hwf p (List.mem_cons_self _ _)
    have hbytes : entriesBytes (p :: t) =
        toLE 8 p.1 ++ (toLE 4 p.2.format ++ (toLE 4 p.2.binary.length ++
          (p.2.binary ++ entriesBytes t))) := by
      simp [entriesBytes, entryBytes]
    have hemp : (emplaceA acc p.1 ⟨p.2.format, p.2.binary⟩).1
        = acc ++ [(p.1, p.2)] := by
      unfold emplaceA
      rw [hdisj p (List.mem_cons_self _ _)]
    rw [List.length_cons]
    unfold loadLoop
    rw [hbytes]
    simp only [readLE_exact hk, readLE_exact hf, readLE_exact hl, readRaw_exact,
      hemp, if_true]
    rw [ih (acc ++ [(p.1, p.2)]) p.1 p.2.format p.2.binary.length]
    · simp
    · intro q hq
      exact hwf q (List.mem_cons_of_mem _ hq)
    · intro q hq
      rw [lookupA_append_of_none (hdisj q (List.mem_cons_of_mem _ hq))]
      have hne : p.1 ≠ q.1 := (List.pairwise_cons.mp hnodup).1 q hq
      simp [lookupA, hne]
    · exact (List.pairwise_cons.mp hnodup).2

/-- Round-trip of the persistence format: loading a just-saved table
returns the table unchanged and does not delete the file. -/
theorem loadProgramCache_saveProgramCache (h0 f0 l0 : Nat)
    (bc : List (Nat × ProgramCacheEntity))
    (hwf : ∀ p ∈ bc, entryWF p)
    (hnodup : List.Pairwise (fun a b => a.1 ≠ b.1) bc)
    (hcount : bc.length < 2 ^ 31) :
    loadProgramCache h0 f0 l0 (some (saveProgramCache bc)) = (bc, false) := by
  unfold loadProgramCache saveProgramCache
  have h2 : (2 : Nat) < 256 ^ 4 := by norm_num
  have hc : bc.length < 256 ^ 4 := by
    have : (2 : Nat) ^ 31 < 256 ^ 4 := by norm_num
    omega
  rw [List.append_assoc]
  rw [show toLE 4 PROGRAM_CACHE_VERSION = toLE 4 2 from rfl]
  simp only [readLE_exact h2, readLE_exact hc,
    if_neg (by omega : ¬(2 : Nat) ≠ 2), if_pos hcount]
  simpa using loadLoop_entries bc [] h0 f0 l0 hwf (by intro p _; rfl) hnodup

/-! ## Facts about the freshly constructed manager -/

theorem initState_fields (sep amd usc : Bool) (file : Option (List Nat)) :
    (initState sep amd usc file).1.separable = sep ∧
    (initState sep amd usc file).1.is_amd = amd ∧
    (initState sep amd usc file).1.trivial_geometry_shader = ⟨0, 0⟩ ∧
    (initState sep amd usc file).1.trivial_vertex_shader.hash = 0 ∧
    (initState sep amd usc file).1.shaders_ref = [] ∧
    (initState sep amd usc file).1.shaders = [] ∧
    (initState sep amd usc file).1.program_cache = [] ∧
    0 < (initState sep amd usc file).1.next_handle := by
  cases sep <;> simp [initState]

theorem initState_sep_binary_cache (amd usc : Bool) (file : Option (List Nat)) :
    (initState true amd usc file).1.binary_cache = [] ∧
    (initState true amd usc file).2 = false := by
  simp [initState]

/-! ## The claims -/

/-- C1. Vertex resolution (`UseProgrammableVertexShader`): when the
config-key hash was previously resolved, the cached resolution is
returned — the active vertex stage is set from it, no generator or
compile call happens (empty trace), and the return value says whether a
programmable stage exists. On first occurrence: an empty generated
source records a null resolution for the key and returns false with
only a generator call in the trace; non-empty source records the
source-content hash's stage object (inserted into the generated-shader
cache if absent, compiled exactly then), makes it the active vertex
stage and returns true. -/
theorem C1_vertex_resolution (env : Env) (s : MgrState) (cfg : Nat) :
    (∀ r : Option Nat, lookupA s.shaders_ref (env.hashVSKey cfg) = some r →
      useProgrammableVertexShader env s cfg =
        ({ s with current_vs := r.map StageRef.cached }, [], r.isSome)) ∧
    (lookupA s.shaders_ref (env.hashVSKey cfg) = none → env.genVS cfg = "" →
      lookupA (useProgrammableVertexShader env s cfg).1.shaders_ref
          (env.hashVSKey cfg) = some none ∧
      (useProgrammableVertexShader env s cfg).1.current_vs = none ∧
      (useProgrammableVertexShader env s cfg).2.2 = false ∧
      (useProgrammableVertexShader env s cfg).2.1 = [Ev.genVS cfg]) ∧
    (lookupA s.shaders_ref (env.hashVSKey cfg) = none → env.genVS cfg ≠ "" →
      lookupA (useProgrammableVertexShader env s cfg).1.shaders_ref
          (env.hashVSKey cfg) = some (some (env.hashCode (env.genVS cfg))) ∧
      (lookupA (useProgrammableVertexShader env s cfg).1.shaders
          (env.hashCode (env.genVS cfg))).isSome ∧
      (useProgrammableVertexShader env s cfg).1.current_vs =
        some (StageRef.cached (env.hashCode (env.genVS cfg))) ∧
      (useProgrammableVertexShader env s cfg).2.2 = true ∧
      compileCount (useProgrammableVertexShader env s cfg).2.1
          (env.hashCode (env.genVS cfg)) =
        (if (lookupA s.shaders (env.hashCode (env.genVS cfg))).isSome
         then 0 else 1)) := by
  refine ⟨?_, ?_, ?_⟩
  · intro r h
    exact useProgVS_hit env s cfg h
  · intro h he
    rw [useProgVS_miss_empty env s cfg h he]
    simp [lookupA]
  · intro h he
    cases hs : lookupA s.shaders (env.hashCode (env.genVS cfg)) with
    | some st =>
      rw [useProgVS_miss_dup env s cfg h he hs]
      simp [lookupA, hs, compileCount, isCompile]
    | none =>
      rw [useProgVS_miss_new env s cfg h he hs]
      refine ⟨by simp [lookupA], ?_, rfl, rfl, ?_⟩
      · rw [lookupA_append_of_none hs]
        simp [lookupA]
      · simp [hs, compileCount, isCompile]

/-- C5. A failed install of a persisted binary blob (handle 0) discards
the entire in-memory blob table — every other previously persisted key
then misses — and the program is linked fresh from the live stage handles;
the new table holds at most the freshly queried binary for the failing
hash. -/
theorem C5_install_failure_discards_table (env : Env)
    (bc : List (Nat × ProgramCacheEntity)) (h vs gs fs nxt : Nat)
    (ent : ProgramCacheEntity) (hl : lookupA bc h = some ent)
    (hfail : env.installOk ent.format ent.binary = false) :
    (createProgram env bc h vs gs fs nxt).1 = nxt ∧
    (createProgram env bc h vs gs fs nxt).2.2.2 = [Ev.link h vs gs fs] ∧
    (∀ h', h' ≠ h → lookupA (createProgram env bc h vs gs fs nxt).2.1 h'
        = none) ∧
    (createProgram env bc h vs gs fs nxt).2.1 =
      (if (env.progBinary nxt).2 = [] then []
       else [(h, ⟨(env.progBinary nxt).1, (env.progBinary nxt).2⟩)]) := by
  unfold createProgram
  rw [hl]
  simp only [hfail, Bool.false_eq_true, if_false, linkFresh]
  refine ⟨trivial, trivial, ?_, ?_⟩
  · intro h' hne
    split
    · rfl
    · simp [emplaceA, lookupA]
      intro he
      exact absurd he.symm hne
  · split
    · rfl
    · simp [emplaceA, lookupA]

/-- C9. Invoking `ApplyTo` while any of the three active stage
references is null is fatal: the call crashes (modelled as `none`, the
code dereferences the null pointer unconditionally); there is no
recovery path that returns a state. -/
theorem C9_apply_null_stage_fatal (env : Env) (s : MgrState)
    (h : s.current_vs = none ∨ s.current_gs = none ∨ s.current_fs = none) :
    applyTo env s = none ∧ step env s Op.apply = none := by
  refine ⟨applyTo_null env s h, ?_⟩
  simp [step, applyTo_null env s h]

/-- Witness for C1 at a concrete first-occurrence resolution. -/
theorem C1_vertex_resolution_witness :
    lookupA s0.shaders_ref (envA.hashVSKey 5) = none ∧
    envA.genVS 5 ≠ "" ∧
    lookupA (useProgrammableVertexShader envA s0 5).1.shaders_ref
        (envA.hashVSKey 5) = some (some (envA.hashCode (envA.genVS 5))) ∧
    (useProgrammableVertexShader envA s0 5).2.2 = true := by
  have h := (C1_vertex_resolution envA s0 5).2.2 rfl (by decide)
  exact ⟨rfl, by decide, h.1, h.2.2.2.1⟩

/-- Witness for C5 at a concrete two-entry table whose entry for hash 5
(format 6) is rejected by the driver: the other key 70000 then misses. -/
theorem C5_install_failure_discards_table_witness :
    lookupA bcW 5 = some ⟨6, [1, 2, 3]⟩ ∧
    envA.installOk 6 [1, 2, 3] = false ∧
    lookupA (createProgram envA bcW 5 10 11 12 4).2.1 70000 = none ∧
    (createProgram envA bcW 5 10 11 12 4).2.2.2 = [Ev.link 5 10 11 12] := by
  have h := C5_install_failure_discards_table envA bcW 5 10 11 12 4
    ⟨6, [1, 2, 3]⟩ rfl (by decide)
  exact ⟨rfl, by decide, h.2.2.1 70000 (by decide), h.2.1⟩

/-- Witness for C9: a fresh manager has a null vertex stage and `Apply`
is fatal there. -/
theorem C9_apply_null_stage_fatal_witness :
    s0.current_vs = none ∧ applyTo envA s0 = none := by
  exact ⟨rfl, (C9_apply_null_stage_fatal envA s0 (Or.inl rfl)).1⟩

/-- C4. Resolving an already-resolved configuration key (any stage)
makes no generator or compile call (the trace is empty) and reinstates
the same recorded resolution; and a resolution or cached stage, once
recorded, survives every later operation of the manager unchanged. -/
theorem C4_resolution_stable (env : Env) :
    (∀ (s : MgrState) (cfg : Nat) (r : Option Nat),
       lookupA s.shaders_ref (env.hashVSKey cfg) = some r →
       useProgrammableVertexShader env s cfg =
         ({ s with current_vs := r.map StageRef.cached }, [], r.isSome)) ∧
    (∀ (s : MgrState) (cfg : Nat) (r : Option Nat),
       lookupA s.shaders_ref (env.hashFSKey cfg) = some r →
       useFragmentShader env s cfg =
         ({ s with current_fs := r.map StageRef.cached }, [])) ∧
    (∀ (s : MgrState) (cfg : Nat) (st : OGLShaderStage),
       lookupA s.shaders (env.hashGSKey cfg) = some st →
       useFixedGeometryShader env s cfg =
         ({ s with current_gs := some (StageRef.cached (env.hashGSKey cfg)) },
          [])) ∧
    (∀ (s : MgrState) (ops : List Op) (s' : MgrState) (evs : List Ev)
       (kh : Nat) (r : Option Nat),
       run env s ops = some (s', evs) →
       lookupA s.shaders_ref kh = some r →
       lookupA s'.shaders_ref kh = some r) ∧
    (∀ (s : MgrState) (ops : List Op) (s' : MgrState) (evs : List Ev)
       (ch : Nat) (st : OGLShaderStage),
       run env s ops = some (s', evs) →
       lookupA s.shaders ch = some st →
       lookupA s'.shaders ch = some st) := by
  refine ⟨?_, ?_, ?_, ?_, ?_⟩
  · intro s cfg r h
    exact useProgVS_hit env s cfg h
  · intro s cfg r h
    exact useFS_hit env s cfg h
  · intro s cfg st h
    exact useFixedGS_hit env s cfg h
  · intro s ops s' evs kh r hr hl
    exact run_shaders_ref_mono env hr hl
  · intro s ops s' evs ch st hr hl
    exact run_shaders_mono env hr hl

/-- Witness for C4: after resolving config 5 once, the key's hash is
recorded and a second resolution returns the same stage with an empty
trace; the record also survives a later fragment resolution and apply. -/
theorem C4_resolution_stable_witness :
    lookupA (useProgrammableVertexShader envA s0 5).1.shaders_ref
        (envA.hashVSKey 5) = some (some 7) ∧
    useProgrammableVertexShader envA
        (useProgrammableVertexShader envA s0 5).1 5 =
      ({ (useProgrammableVertexShader envA s0 5).1 with
          current_vs := (some 7 : Option Nat).map StageRef.cached }, [],
        (some 7 : Option Nat).isSome) := by
  exact ⟨rfl, (C4_resolution_stable envA).1
    (useProgrammableVertexShader envA s0 5).1 5 (some 7) rfl⟩

/-- C10. The trivial geometry stage is constructed but never compiled:
its content hash and GPU handle are both 0 after construction and stay
0 through every run; an `Apply` with the trivial geometry stage selected
binds handle 0 for the geometry stage (separable mode) and keys the
linked program by `hash(vsHash, 0, fsHash)` (monolithic mode), linking —
when a fresh link happens — with geometry handle 0. -/
theorem C10_trivial_geometry_uncompiled (env : Env) :
    (∀ (sep amd usc : Bool) (file : Option (List Nat)),
       (initState sep amd usc file).1.trivial_geometry_shader =
         ⟨0, 0⟩) ∧
    (∀ (sep amd usc : Bool) (file : Option (List Nat)) (ops : List Op)
       (s' : MgrState) (evs : List Ev),
       run env (initState sep amd usc file).1 ops = some (s', evs) →
       s'.trivial_geometry_shader = ⟨0, 0⟩) ∧
    (∀ (s : MgrState) (rv rf : StageRef) (sv sf : OGLShaderStage)
       (t : MgrState) (d : DrawState) (evs : List Ev),
       s.trivial_geometry_shader = ⟨0, 0⟩ →
       s.current_gs = some StageRef.trivialGS →
       s.current_vs = some rv → s.current_fs = some rf →
       derefStage s rv = some sv → derefStage s rf = some sf →
       applyTo env s = some (t, d, evs) →
       (s.separable = true → Ev.useStages sv.handle 0 sf.handle ∈ evs) ∧
       (s.separable = false →
         (lookupA t.program_cache (env.hashTriple sv.hash 0 sf.hash)).isSome ∧
         (pcObj s (env.hashTriple sv.hash 0 sf.hash) = 0 →
          lookupA s.binary_cache (env.hashTriple sv.hash 0 sf.hash) = none →
          Ev.link (env.hashTriple sv.hash 0 sf.hash) sv.handle 0 sf.handle
            ∈ evs))) := by
  refine ⟨?_, ?_, ?_⟩
  · intro sep amd usc file
    cases sep <;> simp [initState]
  · intro sep amd usc file ops s' evs hr
    rw [(run_frame env hr).2.2.2.1]
    cases sep <;> simp [initState]
  · intro s rv rf sv sf t d evs htr hg hv hf dv df ha
    have dg : derefStage s StageRef.trivialGS = some ⟨0, 0⟩ := by
      simp [derefStage, htr]
    constructor
    · intro hsep
      rw [applyTo_sep env s hv hg hf dv dg df hsep] at ha
      simp only [Option.some.injEq, Prod.mk.injEq] at ha
      rw [← ha.2.2]
      cases s.is_amd <;> simp
    · intro hsep
      by_cases hz : pcObj s (env.hashTriple sv.hash 0 sf.hash) = 0
      · rw [applyTo_mono_miss env s hv hg hf dv dg df hsep hz] at ha
        simp only [Option.some.injEq, Prod.mk.injEq] at ha
        obtain ⟨h1, -, h3⟩ := ha
        subst h1
        constructor
        · simp [lookupA]
        · intro hz0 hbc
          rw [← h3]
          unfold createProgram
          rw [hbc]
          simp only [linkFresh]
          simp
      · have hp : ∃ p, lookupA s.program_cache
            (env.hashTriple sv.hash 0 sf.hash) = some p ∧ p ≠ 0 := by
          unfold pcObj at hz
          cases hl : lookupA s.program_cache
              (env.hashTriple sv.hash 0 sf.hash) with
          | none => rw [hl] at hz; simp at hz
          | some p =>
            rw [hl] at hz
            exact ⟨p, rfl, by simpa using hz⟩
        obtain ⟨p, hp1, hp2⟩ := hp
        rw [applyTo_mono_hit env s hv hg hf dv dg df hsep hp1 hp2] at ha
        simp only [Option.some.injEq, Prod.mk.injEq] at ha
        obtain ⟨h1, -, -⟩ := ha
        subst h1
        constructor
        · rw [hp1]
          rfl
        · intro hz0
          exact absurd hz0 hz

/-- Witness for C10: with concrete stages (vertex hash 7 handle 2,
fragment hash 8 handle 3) and trivial geometry, the fresh link uses
geometry handle 0 and the program hash of `(7, 0, 8)`. -/
theorem C10_trivial_geometry_uncompiled_witness :
    sA.trivial_geometry_shader = ⟨0, 0⟩ ∧
    sA.current_gs = some StageRef.trivialGS ∧
    sA.separable = false ∧
    Ev.link (envA.hashTriple 7 0 8) 2 0 3 ∈
      [Ev.link 8000007 2 0 3, Ev.bindings 4] := by
  refine ⟨rfl, rfl, rfl, ?_⟩
  have h := ((C10_trivial_geometry_uncompiled envA).2.2 sA (StageRef.cached 7)
      (StageRef.cached 8) ⟨7, 2⟩ ⟨8, 3⟩
      { sA with binary_cache := [(8000007, ⟨1, [4]⟩)],
                program_cache := [(8000007, 4)], next_handle := 5 }
      ⟨4, 0⟩ [Ev.link 8000007 2 0 3, Ev.bindings 4]
      rfl rfl rfl rfl rfl rfl rfl).2 rfl
  exact h.2 rfl rfl

/-- C3. Deduplication by source content: in any run of a fresh manager
each source-content hash is compiled at most once and the
generated-shader cache never holds two entries for one hash; and for a
pair of unresolved configuration keys (vertex/fragment, vertex/vertex or
fragment/fragment) whose generated texts are identical and non-empty,
resolving both leaves both keys recorded at the same source-hash entry,
exactly one stage object in the cache for that hash, and exactly one
compile in the combined trace. -/
theorem C3_dedup_by_content (env : Env) :
    (∀ (sep amd usc : Bool) (file : Option (List Nat)) (ops : List Op)
       (s' : MgrState) (evs : List Ev),
       run env (initState sep amd usc file).1 ops = some (s', evs) →
       ∀ ch, compileCount evs ch ≤ 1 ∧ keyCount s'.shaders ch ≤ 1) ∧
    (∀ (s : MgrState) (cfg1 cfg2 : Nat),
       env.genVS cfg1 ≠ "" →
       env.genFS cfg2 = env.genVS cfg1 →
       lookupA s.shaders_ref (env.hashVSKey cfg1) = none →
       lookupA s.shaders_ref (env.hashFSKey cfg2) = none →
       env.hashFSKey cfg2 ≠ env.hashVSKey cfg1 →
       lookupA s.shaders (env.hashCode (env.genVS cfg1)) = none →
       lookupA (useFragmentShader env
           (useProgrammableVertexShader env s cfg1).1 cfg2).1.shaders_ref
           (env.hashVSKey cfg1)
         = some (some (env.hashCode (env.genVS cfg1))) ∧
       lookupA (useFragmentShader env
           (useProgrammableVertexShader env s cfg1).1 cfg2).1.shaders_ref
           (env.hashFSKey cfg2)
         = some (some (env.hashCode (env.genVS cfg1))) ∧
       keyCount (useFragmentShader env
           (useProgrammableVertexShader env s cfg1).1 cfg2).1.shaders
           (env.hashCode (env.genVS cfg1)) = 1 ∧
       compileCount ((useProgrammableVertexShader env s cfg1).2.1 ++
           (useFragmentShader env
             (useProgrammableVertexShader env s cfg1).1 cfg2).2)
           (env.hashCode (env.genVS cfg1)) = 1) ∧
    (∀ (s : MgrState) (cfg1 cfg2 : Nat),
       env.genVS cfg1 ≠ "" →
       env.genVS cfg2 = env.genVS cfg1 →
       lookupA s.shaders_ref (env.hashVSKey cfg1) = none →
       lookupA s.shaders_ref (env.hashVSKey cfg2) = none →
       env.hashVSKey cfg2 ≠ env.hashVSKey cfg1 →
       lookupA s.shaders (env.hashCode (env.genVS cfg1)) = none →
       lookupA (useProgrammableVertexShader env
           (useProgrammableVertexShader env s cfg1).1 cfg2).1.shaders_ref
           (env.hashVSKey cfg1)
         = some (some (env.hashCode (env.genVS cfg1))) ∧
       lookupA (useProgrammableVertexShader env
           (useProgrammableVertexShader env s cfg1).1 cfg2).1.shaders_ref
           (env.hashVSKey cfg2)
         = some (some (env.hashCode (env.genVS cfg1))) ∧
       keyCount (useProgrammableVertexShader env
           (useProgrammableVertexShader env s cfg1).1 cfg2).1.shaders
           (env.hashCode (env.genVS cfg1)) = 1 ∧
       compileCount ((useProgrammableVertexShader env s cfg1).2.1 ++
           (useProgrammableVertexShader env
             (useProgrammableVertexShader env s cfg1).1 cfg2).2.1)
           (env.hashCode (env.genVS cfg1)) = 1) ∧
    (∀ (s : MgrState) (cfg1 cfg2 : Nat),
       env.genFS cfg2 = env.genFS cfg1 →
       lookupA s.shaders_ref (env.hashFSKey cfg1) = none →
       lookupA s.shaders_ref (env.hashFSKey cfg2) = none →
       env.hashFSKey cfg2 ≠ env.hashFSKey cfg1 →
       lookupA s.shaders (env.hashCode (env.genFS cfg1)) = none →
       lookupA (useFragmentShader env
           (useFragmentShader env s cfg1).1 cfg2).1.shaders_ref
           (env.hashFSKey cfg1)
         = some (some (env.hashCode (env.genFS cfg1))) ∧
       lookupA (useFragmentShader env
           (useFragmentShader env s cfg1).1 cfg2).1.shaders_ref
           (env.hashFSKey cfg2)
         = some (some (env.hashCode (env.genFS cfg1))) ∧
       keyCount (useFragmentShader env
           (useFragmentShader env s cfg1).1 cfg2).1.shaders
           (env.hashCode (env.genFS cfg1)) = 1 ∧
       compileCount ((useFragmentShader env s cfg1).2 ++
           (useFragmentShader env (useFragmentShader env s cfg1).1 cfg2).2)
           (env.hashCode (env.genFS cfg1)) = 1) := by
  refine ⟨?_, ?_, ?_, ?_⟩
  · intro sep amd usc file ops s' evs hr ch
    have hf := initState_fields sep amd usc file
    constructor
    · have hb := run_compile_bound env hr hf.2.2.2.2.2.2.2 ch
      have h0 : shFlag (initState sep amd usc file).1 ch = 0 := by
        unfold shFlag
        rw [hf.2.2.2.2.2.1]
        rfl
      have h1 := shFlag_le_one s' ch
      omega
    · apply run_keyCount env hr
      rw [hf.2.2.2.2.2.1]
      simp [keyCount]
  · intro s cfg1 cfg2 hne hcode h1 h2 hkne hch
    have hs1 := useProgVS_miss_new env s cfg1 h1 hne hch
    set ch := env.hashCode (env.genVS cfg1) with hchdef
    set s1 := (useProgrammableVertexShader env s cfg1).1 with hs1def
    have e1 : s1.shaders_ref = (env.hashVSKey cfg1, some ch) :: s.shaders_ref := by
      rw [hs1def, hs1]
    have e2 : s1.shaders = s.shaders ++ [(ch, ⟨ch, s.next_handle⟩)] := by
      rw [hs1def, hs1]
    have hl2 : lookupA s1.shaders_ref (env.hashFSKey cfg2) = none := by
      rw [e1, lookupA_cons_ne _ _ (fun he => hkne he.symm)]
      exact h2
    have hcode2 : env.hashCode (env.genFS cfg2) = ch := by
      rw [hcode]
    have hsh : lookupA s1.shaders (env.hashCode (env.genFS cfg2)) =
        some ⟨ch, s.next_handle⟩ := by
      rw [hcode2, e2, lookupA_append_of_none hch]
      simp [lookupA]
    have hs2 := useFS_miss_dup env s1 cfg2 hl2 hsh
    rw [hs2]
    refine ⟨?_, ?_, ?_, ?_⟩
    · rw [lookupA_cons_ne _ _ (fun he => hkne he)]
      rw [e1]
      simp [lookupA, hchdef]
    · rw [hcode2]
      simp [lookupA]
    · rw [e2, keyCount_append_single, keyCount_zero_of_none hch]
      simp
    · rw [hs1]
      simp [compileCount, isCompile]
  · intro s cfg1 cfg2 hne hcode h1 h2 hkne hch
    have hs1 := useProgVS_miss_new env s cfg1 h1 hne hch
    set ch := env.hashCode (env.genVS cfg1) with hchdef
    set s1 := (useProgrammableVertexShader env s cfg1).1 with hs1def
    have e1 : s1.shaders_ref = (env.hashVSKey cfg1, some ch) :: s.shaders_ref := by
      rw [hs1def, hs1]
    have e2 : s1.shaders = s.shaders ++ [(ch, ⟨ch, s.next_handle⟩)] := by
      rw [hs1def, hs1]
    have hl2 : lookupA s1.shaders_ref (env.hashVSKey cfg2) = none := by
      rw [e1, lookupA_cons_ne _ _ (fun he => hkne he.symm)]
      exact h2
    have hne2 : env.genVS cfg2 ≠ "" := by
      rw [hcode]
      exact hne
    have hcode2 : env.hashCode (env.genVS cfg2) = ch := by
      rw [hcode]
    have hsh : lookupA s1.shaders (env.hashCode (env.genVS cfg2)) =
        some ⟨ch, s.next_handle⟩ := by
      rw [hcode2, e2, lookupA_append_of_none hch]
      simp [lookupA]
    have hs2 := useProgVS_miss_dup env s1 cfg2 hl2 hne2 hsh
    rw [hs2]
    refine ⟨?_, ?_, ?_, ?_⟩
    · rw [lookupA_cons_ne _ _ (fun he => hkne he)]
      rw [e1]
      simp [lookupA, hchdef]
    · rw [hcode2]
      simp [lookupA]
    · rw [e2, keyCount_append_single, keyCount_zero_of_none hch]
      simp
    · rw [hs1]
      simp [compileCount, isCompile]
  · intro s cfg1 cfg2 hcode h1 h2 hkne hch
    have hs1 := useFS_miss_new env s cfg1 h1 hch
    set ch := env.hashCode (env.genFS cfg1) with hchdef
    set s1 := (useFragmentShader env s cfg1).1 with hs1def
    have e1 : s1.shaders_ref = (env.hashFSKey cfg1, some ch) :: s.shaders_ref := by
      rw [hs1def, hs1]
    have e2 : s1.shaders = s.shaders ++ [(ch, ⟨ch, s.next_handle⟩)] := by
      rw [hs1def, hs1]
    have hl2 : lookupA s1.shaders_ref (env.hashFSKey cfg2) = none := by
      rw [e1, lookupA_cons_ne _ _ (fun he => hkne he.symm)]
      exact h2
    have hcode2 : env.hashCode (env.genFS cfg2) = ch := by
      rw [hcode]
    have hsh : lookupA s1.shaders (env.hashCode (env.genFS cfg2)) =
        some ⟨ch, s.next_handle⟩ := by
      rw [hcode2, e2, lookupA_append_of_none hch]
      simp [lookupA]
    have hs2 := useFS_miss_dup env s1 cfg2 hl2 hsh
    rw [hs2]
    refine ⟨?_, ?_, ?_, ?_⟩
    · rw [lookupA_cons_ne _ _ (fun he => hkne he)]
      rw [e1]
      simp [lookupA, hchdef]
    · rw [hcode2]
      simp [lookupA]
    · rw [e2, keyCount_append_single, keyCount_zero_of_none hch]
      simp
    · rw [hs1]
      simp [compileCount, isCompile]

/-- Witness for C3 at `envB`, whose vertex and fragment generators both
emit `"shared"`: resolving vertex config 5 then fragment config 7 from a
fresh manager records both keys at hash 6 with one cached object. -/
theorem C3_dedup_by_content_witness :
    envB.genVS 5 ≠ "" ∧
    envB.genFS 7 = envB.genVS 5 ∧
    lookupA (useFragmentShader envB
        (useProgrammableVertexShader envB s0 5).1 7).1.shaders_ref
        (envB.hashVSKey 5) = some (some (envB.hashCode (envB.genVS 5))) ∧
    lookupA (useFragmentShader envB
        (useProgrammableVertexShader envB s0 5).1 7).1.shaders_ref
        (envB.hashFSKey 7) = some (some (envB.hashCode (envB.genVS 5))) ∧
    keyCount (useFragmentShader envB
        (useProgrammableVertexShader envB s0 5).1 7).1.shaders
        (envB.hashCode (envB.genVS 5)) = 1 := by
  have h := (C3_dedup_by_content envB).2.1 s0 5 7 (by decide) rfl rfl rfl
    (by decide) rfl
  exact ⟨by decide, rfl, h.1, h.2.1, h.2.2.1⟩

/-- In separable mode `ApplyTo` publishes the pipeline object and a zero
program handle. -/
theorem applyTo_sep_draw (env : Env) {s t : MgrState} {d : DrawState}
    {evs : List Ev} (hsep : s.separable = true)
    (h : applyTo env s = some (t, d, evs)) :
    d = ⟨0, s.pipeline_handle⟩ := by
  simp only [applyTo] at h
  repeat' split at h
  all_goals first
    | exact Option.noConfusion h
    | (simp only [Option.some.injEq, Prod.mk.injEq] at h
       obtain ⟨-, h2, -⟩ := h
       exact h2.symm)
    | simp_all

/-- C8. Mode exclusivity: a manager constructed separable never loads
the persisted-blob store and, over any run, never creates a
linked-program cache entry or persisted blob (both tables stay empty and
the trace has no link/install event); every successful `Apply` publishes
the pipeline object handle and a zero program handle. -/
theorem C8_separable_mode_exclusivity (env : Env) :
    (∀ (amd usc : Bool) (file : Option (List Nat)),
       (initState true amd usc file).1.binary_cache = [] ∧
       (initState true amd usc file).1.program_cache = []) ∧
    (∀ (amd usc : Bool) (file : Option (List Nat)) (ops : List Op)
       (s' : MgrState) (evs : List Ev),
       run env (initState true amd usc file).1 ops = some (s', evs) →
       s'.binary_cache = [] ∧ s'.program_cache = [] ∧
       (∀ h, createCount evs h = 0) ∧
       (∀ (t : MgrState) (d : DrawState) (evs2 : List Ev),
          applyTo env s' = some (t, d, evs2) →
          d.shader_program = 0 ∧ d.program_pipeline = s'.pipeline_handle)) := by
  constructor
  · intro amd usc file
    exact ⟨(initState_sep_binary_cache amd usc file).1,
           (initState_fields true amd usc file).2.2.2.2.2.2.1⟩
  · intro amd usc file ops s' evs hr
    have hsep0 : (initState true amd usc file).1.separable = true :=
      (initState_fields true amd usc file).1
    obtain ⟨hb, hp⟩ := run_sep_caches env hr hsep0
    have hb' : s'.binary_cache = [] := by
      rw [hb]
      exact (initState_sep_binary_cache amd usc file).1
    have hp' : s'.program_cache = [] := by
      rw [hp]
      exact (initState_fields true amd usc file).2.2.2.2.2.2.1
    refine ⟨hb', hp', ?_, ?_⟩
    · intro h
      have hcb := run_create_bound env hr
        (initState_fields true amd usc file).2.2.2.2.2.2.2 h
      have h0 : pcFlag (initState true amd usc file).1 h = 0 := by
        unfold pcFlag pcObj
        rw [(initState_fields true amd usc file).2.2.2.2.2.2.1]
        rfl
      have h1 : pcFlag s' h = 0 := by
        unfold pcFlag pcObj
        rw [hp']
        rfl
      omega
    · intro t d evs2 ha
      have hsep' : s'.separable = true := (run_frame env hr).1.trans hsep0
      rw [applyTo_sep_draw env hsep' ha]
      exact ⟨rfl, rfl⟩

/-- Witness for C8: a concrete separable run (trivial vertex and
geometry, fragment config 7, then Apply) keeps both tables empty and
publishes pipeline handle 1 with program handle 0. -/
theorem C8_separable_mode_exclusivity_witness :
    run envA sSep [Op.trivVS, Op.trivGS, Op.fragFS 7, Op.apply] =
      some ({ sSep with
                shaders_ref := [(207, some 8)],
                shaders := [(8, ⟨8, 3⟩)],
                current_vs := some StageRef.trivialVS,
                current_gs := some StageRef.trivialGS,
                current_fs := some (StageRef.cached 8),
                next_handle := 4 },
            [Ev.genFS 7, Ev.compile 8, Ev.useStages 2 0 3]) ∧
    ({ sSep with
         shaders_ref := [(207, some 8)],
         shaders := [(8, ⟨8, 3⟩)],
         current_vs := some StageRef.trivialVS,
         current_gs := some StageRef.trivialGS,
         current_fs := some (StageRef.cached 8),
         next_handle := 4 } : MgrState).binary_cache = [] ∧
    ({ sSep with
         shaders_ref := [(207, some 8)],
         shaders := [(8, ⟨8, 3⟩)],
         current_vs := some StageRef.trivialVS,
         current_gs := some StageRef.trivialGS,
         current_fs := some (StageRef.cached 8),
         next_handle := 4 } : MgrState).program_cache = [] := by
  have h := (C8_separable_mode_exclusivity envA).2 false true (some [9, 9, 9])
    [Op.trivVS, Op.trivGS, Op.fragFS 7, Op.apply]
    { sSep with
        shaders_ref := [(207, some 8)],
        shaders := [(8, ⟨8, 3⟩)],
        current_vs := some StageRef.trivialVS,
        current_gs := some StageRef.trivialGS,
        current_fs := some (StageRef.cached 8),
        next_handle := 4 }
    [Ev.genFS 7, Ev.compile 8, Ev.useStages 2 0 3] rfl
  exact ⟨rfl, h.1, h.2.1⟩

/-- C2. Monolithic `Apply`: the program hash is the hash of the three
active stage content hashes; a cache hit returns the linked program with
no creation; on a miss with no persisted blob the program is linked
fresh from the three live stage handles, bindings are applied, and the
queried binary is persisted iff non-empty; on a miss whose blob installs
the program comes from the blob with no link; and over any monolithic
run a linked program is created at most once per distinct stage-hash
combination. -/
theorem C2_monolithic_link_cache (env : Env) :
    (∀ (s : MgrState) (rv rg rf : StageRef) (sv sg sf : OGLShaderStage),
       s.current_vs = some rv → s.current_gs = some rg →
       s.current_fs = some rf →
       derefStage s rv = some sv → derefStage s rg = some sg →
       derefStage s rf = some sf → s.separable = false →
       (∀ p, lookupA s.program_cache
             (env.hashTriple sv.hash sg.hash sf.hash) = some p → p ≠ 0 →
          applyTo env s = some (s, ⟨p, 0⟩, [])) ∧
       (pcObj s (env.hashTriple sv.hash sg.hash sf.hash) = 0 →
        lookupA s.binary_cache (env.hashTriple sv.hash sg.hash sf.hash)
            = none →
          applyTo env s = some
            ({ s with
                 binary_cache :=
                   (if (env.progBinary s.next_handle).2 = []
                    then s.binary_cache
                    else s.binary_cache ++
                      [(env.hashTriple sv.hash sg.hash sf.hash,
                        ⟨(env.progBinary s.next_handle).1,
                         (env.progBinary s.next_handle).2⟩)]),
                 program_cache :=
                   (env.hashTriple sv.hash sg.hash sf.hash, s.next_handle) ::
                     s.program_cache,
                 next_handle := s.next_handle + 1 },
             ⟨s.next_handle, 0⟩,
             [Ev.link (env.hashTriple sv.hash sg.hash sf.hash)
                sv.handle sg.handle sf.handle,
              Ev.bindings s.next_handle])) ∧
       (∀ ent, pcObj s (env.hashTriple sv.hash sg.hash sf.hash) = 0 →
          lookupA s.binary_cache (env.hashTriple sv.hash sg.hash sf.hash)
              = some ent →
          env.installOk ent.format ent.binary = true →
          applyTo env s = some
            ({ s with
                 program_cache :=
                   (env.hashTriple sv.hash sg.hash sf.hash, s.next_handle) ::
                     s.program_cache,
                 next_handle := s.next_handle + 1 },
             ⟨s.next_handle, 0⟩,
             [Ev.install (env.hashTriple sv.hash sg.hash sf.hash),
              Ev.bindings s.next_handle]))) ∧
    (∀ (amd usc : Bool) (file : Option (List Nat)) (ops : List Op)
       (s' : MgrState) (evs : List Ev),
       run env (initState false amd usc file).1 ops = some (s', evs) →
       ∀ h, createCount evs h ≤ 1) := by
  constructor
  · intro s rv rg rf sv sg sf hv hg hf dv dg df hsep
    refine ⟨?_, ?_, ?_⟩
    · intro p hp hpz
      exact applyTo_mono_hit env s hv hg hf dv dg df hsep hp hpz
    · intro hz hbc
      rw [applyTo_mono_miss env s hv hg hf dv dg df hsep hz]
      have he : (emplaceA s.binary_cache
          (env.hashTriple sv.hash sg.hash sf.hash)
          ⟨(env.progBinary s.next_handle).1,
           (env.progBinary s.next_handle).2⟩).1
          = s.binary_cache ++
            [(env.hashTriple sv.hash sg.hash sf.hash,
              ⟨(env.progBinary s.next_handle).1,
               (env.progBinary s.next_handle).2⟩)] := by
        unfold emplaceA
        rw [hbc]
      unfold createProgram
      rw [hbc]
      simp only [linkFresh, he]
      rfl
    · intro ent hz hbc hok
      rw [applyTo_mono_miss env s hv hg hf dv dg df hsep hz]
      unfold createProgram
      rw [hbc]
      simp only [hok, if_true]
      rfl
  · intro amd usc file ops s' evs hr h
    have hcb := run_create_bound env hr
      (initState_fields false amd usc file).2.2.2.2.2.2.2 h
    have h0 : pcFlag (initState false amd usc file).1 h = 0 := by
      unfold pcFlag pcObj
      rw [(initState_fields false amd usc file).2.2.2.2.2.2.1]
      rfl
    have h1 := pcFlag_le_one s' h
    omega

/-- Witness for C2: the concrete monolithic state `sA` (vertex hash 7
handle 2, trivial geometry, fragment hash 8 handle 3, empty caches)
links fresh, persists the non-empty binary `[4]`, and publishes
program handle 4. -/
theorem C2_monolithic_link_cache_witness :
    sA.separable = false ∧
    pcObj sA (envA.hashTriple 7 0 8) = 0 ∧
    lookupA sA.binary_cache (envA.hashTriple 7 0 8) = none ∧
    applyTo envA sA = some
      ({ sA with
           binary_cache := [(8000007, ⟨1, [4]⟩)],
           program_cache := [(8000007, 4)],
           next_handle := 5 },
       ⟨4, 0⟩, [Ev.link 8000007 2 0 3, Ev.bindings 4]) := by
  have h := ((C2_monolithic_link_cache envA).1 sA (StageRef.cached 7)
    StageRef.trivialGS (StageRef.cached 8) ⟨7, 2⟩ ⟨0, 0⟩ ⟨8, 3⟩
    rfl rfl rfl rfl rfl rfl rfl).2.1 rfl rfl
  exact ⟨rfl, rfl, rfl, h⟩

/-- The load loop on the bytes of `rest` complete entries but a count
that exceeds them by `k + 1`: all complete entries are emplaced, then
the failing iteration emplaces a zero-filled garbage entry, deletes the
file and breaks, keeping everything emplaced so far. -/
theorem readLE_nil (g : Bool) (old n : Nat) (hn : 0 < n) :
    readLE ⟨[], g⟩ n old = (fromLE (toLE n old), ⟨[], false⟩) := by
  unfold readLE
  rw [if_neg (by simp; omega)]
  simp

theorem readRaw_nil (n : Nat) :
    readRaw ⟨[], false⟩ n = (List.replicate n 0, ⟨[], false⟩) := by
  cases n with
  | zero => rfl
  | succ m =>
    unfold readRaw
    rw [if_neg (by simp)]
    simp

theorem lookupA_isSome_of_mem {α : Type} {m : List (Nat × α)} {p : Nat × α}
    (h : p ∈ m) : (lookupA m p.1).isSome := by
  induction m with
  | nil => simp at h
  | cons q t ih =>
    cases q with
    | mk k v =>
      rw [lookupA_cons]
      by_cases hk : k = p.1
      · simp [hk]
      · rw [if_neg hk]
        rcases List.mem_cons.mp h with he | hm
        · subst he
          simp at hk
        · exact ih hm

theorem staleVals_mem (rest : List (Nat × ProgramCacheEntity)) :
    ∀ g : Nat × Nat × Nat, rest ≠ [] →
    ∃ p ∈ rest, staleVals rest g = (p.1, p.2.format, p.2.binary.length) := by
  induction rest with
  | nil =>
    intro g h
    exact absurd rfl h
  | cons p t ih =>
    intro g _
    by_cases ht : t = []
    · subst ht
      exact ⟨p, List.mem_cons_self _ _, rfl⟩
    · obtain ⟨q, hq, he⟩ := ih (p.1, p.2.format, p.2.binary.length) ht
      exact ⟨q, List.mem_cons_of_mem _ hq, he⟩

/-- The load loop on the bytes of `rest` complete entries but a count
that exceeds them by `k + 1`: all complete entries are emplaced, then
the failing iteration re-runs `emplace` with whatever the loop's
uninitialized locals hold — the last entry's key/format/length, or the
indeterminate initial values when no entry was read — with the payload
zero-padded by `resize`; then the file is deleted and the loop breaks,
keeping everything emplaced so far. -/
theorem loadLoop_entries_trunc (rest : List (Nat × ProgramCacheEntity)) :
    ∀ (acc : List (Nat × ProgramCacheEntity)) (h0 f0 l0 k : Nat),
    (∀ p ∈ rest, entryWF p) →
    (∀ p ∈ rest, lookupA acc p.1 = none) →
    List.Pairwise (fun a b => a.1 ≠ b.1) rest →
    loadLoop (rest.length + (k + 1)) ⟨entriesBytes rest, true⟩ h0 f0 l0 acc =
      ((emplaceA (acc ++ rest)
          (fromLE (toLE 8 (staleVals rest (h0, f0, l0)).1))
          ⟨fromLE (toLE 4 (staleVals rest (h0, f0, l0)).2.1),
           List.replicate (fromLE (toLE 4 (staleVals rest (h0, f0, l0)).2.2))
             0⟩).1,
       true) := by
  induction rest with
  | nil =>
    intro acc h0 f0 l0 k _ _ _
    show loadLoop (0 + (k + 1)) ⟨entriesBytes [], true⟩ h0 f0 l0 acc = _
    rw [Nat.zero_add]
    unfold loadLoop
    simp only [entriesBytes, readLE_nil true h0 8 (by omega),
      readLE_nil false f0 4 (by omega), readLE_nil false l0 4 (by omega),
      readRaw_nil, staleVals]
    simp
  | cons p t ih =>
    intro acc h0 f0 l0 k hwf hdisj hnodup
    obtain ⟨hk, hf, hl⟩ := hwf p (List.mem_cons_self _ _)
    have hbytes : entriesBytes (p :: t) =
        toLE 8 p.1 ++ (toLE 4 p.2.format ++ (toLE 4 p.2.binary.length ++
          (p.2.binary ++ entriesBytes t))) := by
      simp [entriesBytes, entryBytes]
    have hemp : (emplaceA acc p.1 ⟨p.2.format, p.2.binary⟩).1
        = acc ++ [(p.1, p.2)] := by
      unfold emplaceA
      rw [hdisj p (List.mem_cons_self _ _)]
    have hlen : (p :: t).length + (k + 1) = (t.length + (k + 1)) + 1 := by
      simp [List.length_cons]
      omega
    rw [hlen]
    unfold loadLoop
    rw [hbytes]
    simp only [readLE_exact hk, readLE_exact hf, readLE_exact hl, readRaw_exact,
      hemp, if_true, staleVals]
    rw [ih (acc ++ [(p.1, p.2)]) p.1 p.2.format p.2.binary.length k]
    · simp
    · intro q hq
      exact hwf q (List.mem_cons_of_mem _ hq)
    · intro q hq
      rw [lookupA_append_of_none (hdisj q (List.mem_cons_of_mem _ hq))]
      have hne : p.1 ≠ q.1 := (List.pairwise_cons.mp hnodup).1 q hq
      simp [lookupA, hne]
    · exact (List.pairwise_cons.mp hnodup).2

/-- C6 (counterexample). The store file `C6file` has the correct
version tag 2 and announces two entries but is truncated after its
first complete entry (key 5, format 7, bytes `[9]`). Loading it does
delete the file, but the in-memory table is NOT empty afterwards: the
failing second iteration re-reads the stale locals left by the first
entry (key 5, format 7, length 1, zero-padded payload) and its
`emplace` is a no-op, so the complete entry from the bad file remains —
contradicting "after a failed load the in-memory blob table contains no
entry from the bad file". A file holding only the version tag
additionally shows a read failure (of the count) after which the file
still exists. -/
theorem C6_load_failure_counterexample :
    (loadProgramCache 0 0 0 (some C6file)).2 = true ∧
    lookupA (loadProgramCache 0 0 0 (some C6file)).1 5 = some ⟨7, [9]⟩ ∧
    (loadProgramCache 0 0 0 (some C6file)).1 = [(5, ⟨7, [9]⟩)] ∧
    loadProgramCache 0 0 0 (some (toLE 4 PROGRAM_CACHE_VERSION)) =
      ([], false) := by
  refine ⟨rfl, rfl, rfl, rfl⟩

/-- C6 (amended). On loading the persistence store (for every value of
the loop's indeterminate locals `h0`/`f0`/`l0`): a version tag other
than 2 deletes the file and loads nothing; a missing file loads nothing
and deletes nothing; a file whose header announces more entries than it
contains loads every complete entry and deletes the file, the failing
iteration's `emplace` re-using the stale key of the last complete entry
and so changing nothing — all previously read entries stay in the
table; when the header announces entries but none is present, the
single emplaced entry is built from the indeterminate locals
(zero-padded payload); and a file that ends right after the version tag
(the zero-initialized count's read fails, with no `IsGood` check after
it) loads nothing and leaves the file in place. -/
theorem C6_load_failure_amended :
    (∀ (h0 f0 l0 : Nat) (bytes : List Nat),
       (readLE ⟨bytes, true⟩ 4 0).1 ≠ PROGRAM_CACHE_VERSION →
       loadProgramCache h0 f0 l0 (some bytes) = ([], true)) ∧
    (∀ h0 f0 l0 : Nat, loadProgramCache h0 f0 l0 none = ([], false)) ∧
    (∀ (h0 f0 l0 : Nat) (bc : List (Nat × ProgramCacheEntity)) (k : Nat),
       (∀ p ∈ bc, entryWF p) →
       List.Pairwise (fun a b => a.1 ≠ b.1) bc →
       bc ≠ [] →
       bc.length + (k + 1) < 2 ^ 31 →
       loadProgramCache h0 f0 l0 (some (toLE 4 PROGRAM_CACHE_VERSION ++
           toLE 4 (bc.length + (k + 1)) ++ entriesBytes bc)) = (bc, true)) ∧
    (∀ h0 f0 l0 k : Nat, k + 1 < 2 ^ 31 →
       loadProgramCache h0 f0 l0 (some (toLE 4 PROGRAM_CACHE_VERSION ++
           toLE 4 (k + 1))) =
         ([(fromLE (toLE 8 h0),
            ⟨fromLE (toLE 4 f0), List.replicate (fromLE (toLE 4 l0)) 0⟩)],
          true)) ∧
    (∀ h0 f0 l0 : Nat,
       loadProgramCache h0 f0 l0 (some (toLE 4 PROGRAM_CACHE_VERSION)) =
         ([], false)) := by
  have h2 : (2 : Nat) < 256 ^ 4 := by norm_num
  refine ⟨?_, fun h0 f0 l0 => rfl, ?_, ?_, fun h0 f0 l0 => rfl⟩
  · intro h0 f0 l0 bytes hv
    simp only [loadProgramCache]
    rw [if_pos hv]
  · intro h0 f0 l0 bc k hwf hnodup hne hcount
    unfold loadProgramCache
    have hc : bc.length + (k + 1) < 256 ^ 4 := by
      have : (2 : Nat) ^ 31 < 256 ^ 4 := by norm_num
      omega
    rw [List.append_assoc]
    rw [show PROGRAM_CACHE_VERSION = 2 from rfl]
    simp only [readLE_exact h2, readLE_exact hc,
      if_neg (by omega : ¬(2 : Nat) ≠ 2), if_pos hcount]
    have ht := loadLoop_entries_trunc bc [] h0 f0 l0 k hwf
      (by intro p _; rfl) hnodup
    rw [ht]
    obtain ⟨p, hp, hs⟩ := staleVals_mem bc (h0, f0, l0) hne
    have hk1 : fromLE (toLE 8 (staleVals bc (h0, f0, l0)).1) = p.1 := by
      rw [hs]
      exact fromLE_toLE (hwf p hp).1
    rw [hk1]
    have hsome : (lookupA ([] ++ bc) p.1).isSome := by
      rw [List.nil_append]
      exact lookupA_isSome_of_mem hp
    obtain ⟨w, hw⟩ := Option.isSome_iff_exists.mp hsome
    rw [lookupA_emplaceA_self_of_some _ hw]
    simp
  · intro h0 f0 l0 k hcount
    unfold loadProgramCache
    have hc : k + 1 < 256 ^ 4 := by
      have : (2 : Nat) ^ 31 < 256 ^ 4 := by norm_num
      omega
    rw [show PROGRAM_CACHE_VERSION = 2 from rfl]
    rw [show toLE 4 2 ++ toLE 4 (k + 1)
          = toLE 4 2 ++ (toLE 4 (k + 1) ++ []) from by simp]
    simp only [readLE_exact h2, readLE_exact hc,
      if_neg (by omega : ¬(2 : Nat) ≠ 2), if_pos hcount]
    have ht := loadLoop_entries_trunc [] [] h0 f0 l0 k
      (by intro p hp; simp at hp) (by intro p hp; simp at hp)
      List.Pairwise.nil
    rw [show entriesBytes [] = [] from rfl] at ht
    rw [show ([] : List (Nat × ProgramCacheEntity)).length + (k + 1) = k + 1
          from by simp] at ht
    rw [ht]
    simp [staleVals, emplaceA, lookupA]

/-- Witness for the amended C6: a file announcing 2 entries but holding
only one (key 5, format 7, bytes `[9]`) loads exactly that entry — the
failing iteration re-emplaces the stale key 5, a no-op — and deletes
the file. -/
theorem C6_load_failure_amended_witness :
    (∀ p ∈ [((5 : Nat), (⟨7, [9]⟩ : ProgramCacheEntity))], entryWF p) ∧
    ([((5 : Nat), (⟨7, [9]⟩ : ProgramCacheEntity))] ≠ []) ∧
    loadProgramCache 0 0 0 (some (toLE 4 PROGRAM_CACHE_VERSION ++
        toLE 4 ([((5 : Nat), (⟨7, [9]⟩ : ProgramCacheEntity))].length +
          (0 + 1)) ++
        entriesBytes [(5, ⟨7, [9]⟩)])) = ([(5, ⟨7, [9]⟩)], true) := by
  refine ⟨by decide, by decide, ?_⟩
  exact C6_load_failure_amended.2.2.1 0 0 0 [(5, ⟨7, [9]⟩)] 0 (by decide)
    (by decide) (by decide) (by decide)

/-- C7. Persistence round-trip: saving any well-formed table (64-bit
keys, 32-bit format tags and lengths, fewer than 2^31 entries, distinct
keys as an `unordered_map` guarantees) and loading the written bytes
yields the table unchanged, with the file left in place. -/
theorem C7_persistence_roundtrip (h0 f0 l0 : Nat)
    (bc : List (Nat × ProgramCacheEntity))
    (hwf : ∀ p ∈ bc, entryWF p)
    (hnodup : List.Pairwise (fun a b => a.1 ≠ b.1) bc)
    (hcount : bc.length < 2 ^ 31) :
    loadProgramCache h0 f0 l0 (some (saveProgramCache bc)) = (bc, false) :=
  loadProgramCache_saveProgramCache h0 f0 l0 bc hwf hnodup hcount

/-- Witness for C7: the two-entry table `bcW` survives a save/load
round trip. -/
theorem C7_persistence_roundtrip_witness :
    (∀ p ∈ bcW, entryWF p) ∧
    List.Pairwise (fun a b => a.1 ≠ b.1) bcW ∧
    bcW.length < 2 ^ 31 ∧
    loadProgramCache 0 0 0 (some (saveProgramCache bcW)) = (bcW, false) := by
  refine ⟨by decide, by decide, by decide, ?_⟩
  exact C7_persistence_roundtrip 0 0 0 bcW (by decide) (by decide) (by decide)

end GlShaderManager
